import Mathlib

/-!
Verification of the GhostFS filesystem engine (src/fs.c) against its
natural-language specification.

The C code is shallowly embedded as follows.

* A `Cluster` is the in-memory `struct cluster`: 4092 payload bytes
  (`data : Nat → Nat`, indices `0..4091` meaningful), and the trailer
  fields `next` (u16), `used` (u8) and `dirty` (u8) kept as `Nat`
  carrying the raw byte values, exactly as the C struct does.
* A `Ghostfs` models the mounted filesystem.  The C code keeps a lazy
  cluster cache backed by the stegger byte channel; after a cluster is
  loaded its cached object is the authoritative copy until sync.  None of
  the in-memory operations modelled here ever re-reads a loaded cluster
  from the store, so the cache and the store are modelled together as a
  single total map `clusters : Nat → Cluster`; `cluster_get` only
  performs the `nr >= cluster_count` bound check of the C code.
* Directory entries live inside cluster payload bytes at 62-byte strides,
  exactly as in the C layout (56 filename bytes, u32 little-endian
  size-with-flag, u16 little-endian first cluster).
* C strings (paths, names) are byte lists without the terminating NUL;
  reading one position past the end of such a list yields the NUL.
* Fallible operations return `Except Nat α` where the `Nat` is the
  (positive) errno that the C function returns negated.
* Loops of the C code that walk `next` chains may diverge on cyclic
  chains; they are given explicit fuel, and callers pass enough fuel for
  every acyclic configuration.  Fuel exhaustion returns the artificial
  code `efuel`, distinct from every real errno.
* The stegger byte channel (stegger.c, not part of src/) and MD5 (md5.c,
  not part of src/) are modelled from the spec: the stegger is a flat
  byte-addressable store failing with `out-of-range` when
  `offset + n > capacity`, and MD5 is an arbitrary parameter
  `md5 : List Nat → List Nat` mapping a byte string to its 16-byte
  digest.
-/

deriving instance DecidableEq for Except

namespace GFS

/-- errno codes, as positive naturals (the C functions return their
negations). -/
def enoent : Nat := 2
def eio : Nat := 5
def enomem : Nat := 12
def eexist : Nat := 17
def enotdir : Nat := 20
def eisdir : Nat := 21
def einval : Nat := 22
def enospc : Nat := 28
def efbig : Nat := 27
def erange : Nat := 34
def enametoolong : Nat := 36
def enotempty : Nat := 39
def eoverflow : Nat := 75
/-- artificial code returned on fuel exhaustion of a loop that the C code
runs without bound (reachable only on cyclic chains). -/
def efuel : Nat := 1000

def CLUSTER_SIZE : Nat := 4096
def CLUSTER_DATA : Nat := 4092
def CLUSTER_DIRENTS : Nat := 66
def FILENAME_SIZE : Nat := 56
def FILESIZE_MAX : Nat := 0x7FFFFFFF

/-- `struct cluster`: 4092 payload bytes plus the `cluster_header`
trailer.  `next`, `used`, `dirty` carry the raw field values. -/
structure Cluster where
  data : Nat → Nat
  next : Nat
  used : Nat
  dirty : Nat

/-- `struct dir_entry`, decoded: 56 filename bytes, raw u32 `size`
(bit 31 = directory flag), u16 starting cluster. -/
structure DirEntry where
  filename : List Nat
  size : Nat
  cluster : Nat
  deriving DecidableEq

/-- `struct ghostfs`: cluster count from the header, the cluster map
(cache backed by the store, see the file comment), the synthetic root
entry and the free-cluster counter (u16). -/
structure Ghostfs where
  cluster_count : Nat
  clusters : Nat → Cluster
  root_entry : DirEntry
  free_clusters : Nat

/-- `struct dir_iter`: the current cluster number, the entry index in it,
and whether `entry` points at the synthetic root entry instead of a slot
(the `it->entry = &gfs->root_entry` case of `dir_iter_lookup`). -/
structure DirIter where
  cluster_nr : Nat
  entry_nr : Nat
  isRoot : Bool
  deriving DecidableEq

/-- Overwrite one cluster of the state (mutation through a cached
cluster pointer in C). -/
def setCluster (g : Ghostfs) (nr : Nat) (c : Cluster) : Ghostfs :=
  { g with clusters := Function.update g.clusters nr c }

/-- `mark_cluster`: set the in-memory dirty byte. -/
def mark_cluster (c : Cluster) : Cluster := { c with dirty := 1 }

/-- mark the cluster numbered `nr` dirty in the state. -/
def markNr (g : Ghostfs) (nr : Nat) : Ghostfs :=
  setCluster g nr (mark_cluster (g.clusters nr))

/-- u16 increment of the `free_clusters` counter. -/
def incFree (g : Ghostfs) : Ghostfs :=
  { g with free_clusters := (g.free_clusters + 1) % 65536 }

/-- u16 decrement of the `free_clusters` counter. -/
def decFree (g : Ghostfs) : Ghostfs :=
  { g with free_clusters := (g.free_clusters + 65535) % 65536 }

/-- `cluster_get`: bound check against `cluster_count` (the cache load
itself cannot fail in the model, see the file comment). -/
def cluster_get (g : Ghostfs) (nr : Nat) : Except Nat Cluster :=
  if g.cluster_count ≤ nr then .error erange else .ok (g.clusters nr)

/-- `cluster_get_next`, returning the successor's number: fails with
`-EIO` on a zero `next`, then does `cluster_get`. -/
def cluster_next_nr (g : Ghostfs) (nr : Nat) : Except Nat Nat :=
  if (g.clusters nr).next = 0 then .error eio
  else if g.cluster_count ≤ (g.clusters nr).next then .error erange
  else .ok (g.clusters nr).next

/-- `cluster_at`, returning the number of the cluster at `index` steps
from `nr` along the chain (the C loop `for (i = 0; i <= index; i++)`;
each step checks `nr != 0` and calls `cluster_get`). -/
def cluster_at_nr (g : Ghostfs) (nr : Nat) : Nat → Except Nat Nat
  | 0 =>
    if nr = 0 then .error eio
    else if g.cluster_count ≤ nr then .error erange
    else .ok nr
  | index + 1 =>
    if nr = 0 then .error eio
    else if g.cluster_count ≤ nr then .error erange
    else cluster_at_nr g (g.clusters nr).next index

/-! ## Directory entries inside cluster payload bytes -/

/-- decode the directory entry at slot `i` of a cluster: 56 filename
bytes at offset `62*i`, little-endian u32 size, little-endian u16
cluster. -/
def getEntry (c : Cluster) (i : Nat) : DirEntry :=
  { filename := (List.range FILENAME_SIZE).map (fun j => c.data (62 * i + j))
  , size := c.data (62 * i + 56) + 256 * c.data (62 * i + 57) +
      65536 * c.data (62 * i + 58) + 16777216 * c.data (62 * i + 59)
  , cluster := c.data (62 * i + 60) + 256 * c.data (62 * i + 61) }

/-- `dir_entry_used`: first filename byte is not NUL. -/
def dir_entry_used (e : DirEntry) : Bool := e.filename.getD 0 0 ≠ 0

/-- `dir_entry_is_directory`: bit 31 of the raw size. -/
def dir_entry_is_directory (e : DirEntry) : Bool := e.size / 2 ^ 31 % 2 = 1

/-- write the 4 size bytes of slot `i` (`dir_entry_set_size` with the
flag already folded into `v`). -/
def putSizeBytes (c : Cluster) (i : Nat) (v : Nat) : Cluster :=
  { c with data := fun j =>
      if j = 62 * i + 56 then v % 256
      else if j = 62 * i + 57 then v / 256 % 256
      else if j = 62 * i + 58 then v / 65536 % 256
      else if j = 62 * i + 59 then v / 16777216 % 256
      else c.data j }

/-- `dir_entry_set_size`: store `new_size & 0x7FFFFFFF`, or-ing in bit 31
when `is_dir`. -/
def dir_entry_set_size (c : Cluster) (i : Nat) (new_size : Nat) (is_dir : Bool) : Cluster :=
  putSizeBytes c i (new_size % 2 ^ 31 + if is_dir then 2 ^ 31 else 0)

/-- write the 2 cluster bytes of slot `i` (`e->cluster = v`). -/
def putClusterBytes (c : Cluster) (i : Nat) (v : Nat) : Cluster :=
  { c with data := fun j =>
      if j = 62 * i + 60 then v % 256
      else if j = 62 * i + 61 then v / 256 % 256
      else c.data j }

/-- `strcpy(entry->filename, name)`: copy the NUL-free name bytes and the
terminating NUL into the 56-byte field, leaving the tail bytes as they
were (strcpy copies exactly `strlen+1` bytes). -/
def putFilename (c : Cluster) (i : Nat) (name : List Nat) : Cluster :=
  { c with data := fun j =>
      if 62 * i ≤ j ∧ j < 62 * i + name.length then name.getD (j - 62 * i) 0
      else if j = 62 * i + name.length then 0
      else c.data j }

/-- zero the first filename byte of slot `i`
(`entry->filename[0] = '\0'`). -/
def clearFilename (c : Cluster) (i : Nat) : Cluster :=
  { c with data := fun j => if j = 62 * i then 0 else c.data j }

/-- the entry an iterator points at: the synthetic root entry or the
decoded slot. -/
def entryAtIter (g : Ghostfs) (it : DirIter) : DirEntry :=
  if it.isRoot then g.root_entry else getEntry (g.clusters it.cluster_nr) it.entry_nr

/-- write the entry's size field through the iterator
(`dir_entry_set_size(it->entry, new_size, is_dir)`). -/
def setEntrySizeAtIter (g : Ghostfs) (it : DirIter) (new_size : Nat) (is_dir : Bool) : Ghostfs :=
  if it.isRoot then
    { g with root_entry :=
        { g.root_entry with size := new_size % 2 ^ 31 + if is_dir then 2 ^ 31 else 0 } }
  else
    setCluster g it.cluster_nr
      (dir_entry_set_size (g.clusters it.cluster_nr) it.entry_nr new_size is_dir)

/-- write the entry's cluster field through the iterator
(`it->entry->cluster = v`). -/
def setEntryClusterAtIter (g : Ghostfs) (it : DirIter) (v : Nat) : Ghostfs :=
  if it.isRoot then { g with root_entry := { g.root_entry with cluster := v % 65536 } }
  else setCluster g it.cluster_nr (putClusterBytes (g.clusters it.cluster_nr) it.entry_nr v)

/-! ## Allocator (`alloc_clusters`) and chain release (`free_clusters`) -/

/-- set a cluster's `next` field (the bare `prev->hdr.next = pos`
assignments of `alloc_clusters`, which do not mark). -/
def setNext (g : Ghostfs) (nr v : Nat) : Ghostfs :=
  setCluster g nr { g.clusters nr with next := v }

/-- the `undo:` label of `alloc_clusters`: walk the chain claimed so far
from `first`, resetting `used`, marking dirty and re-incrementing
`free_clusters`; `n` counts the clusters to roll back (`alloc`), `ret`
is the error being returned.  A failing `cluster_get` aborts the rollback
and returns its own error. -/
def alloc_undo (g : Ghostfs) (ret : Nat) : Nat → Nat → Ghostfs × Except Nat Nat
  | _, 0 => (g, .error ret)
  | pos, n + 1 =>
    if g.cluster_count ≤ pos then (g, .error erange)
    else
      let c := g.clusters pos
      let g1 := incFree (setCluster g pos { c with used := 0, dirty := 1 })
      alloc_undo g1 ret c.next n

/-- the allocation scan of `alloc_clusters`: the merged
`while (alloc < count) / for (;;)` loop.  Each non-final step increments
`pos`, so fuel `cluster_count + 1` always suffices. -/
def alloc_loop (zero : Bool) (count : Nat) :
    Nat → Ghostfs → Nat → Nat → Nat → Nat → Ghostfs × Except Nat Nat
  | 0, g, _, _, _, _ => (g, .error efuel)
  | fuel + 1, g, pos, allocd, first, prev =>
    if count ≤ allocd then (setNext g prev 0, .ok first)
    else if g.cluster_count ≤ pos then alloc_undo g enospc first allocd
    else
      let c := g.clusters pos
      if c.used = 0 then
        let c' : Cluster :=
          { data := if zero then (fun j => if j < CLUSTER_DATA then 0 else c.data j) else c.data
          , next := c.next, used := 1, dirty := 1 }
        let g1 := decFree (setCluster g pos c')
        let g2 := if first = 0 then g1 else setNext g1 prev pos
        let first' := if first = 0 then pos else first
        alloc_loop zero count fuel g2 (pos + 1) (allocd + 1) first' pos
      else alloc_loop zero count fuel g (pos + 1) allocd first prev

/-- `alloc_clusters(gfs, count, ..., zero)`: returns the first cluster
number of the new chain or an error.  Note the C function must not be
called with `count = 0` (it would dereference a null `prev`); all its
call sites pass `count ≥ 1`. -/
def alloc_clusters (g : Ghostfs) (count : Nat) (zero : Bool) : Ghostfs × Except Nat Nat :=
  alloc_loop zero count (g.cluster_count + 1) g 1 0 0 0

/-- `free_clusters(gfs, c)` starting from cluster number `nr`: walk the
chain resetting `used`, marking dirty and incrementing the counter.  The
C loop does not terminate on a cyclic chain, hence the fuel. -/
def free_clusters : Nat → Ghostfs → Nat → Ghostfs × Except Nat Unit
  | 0, g, _ => (g, .error efuel)
  | fuel + 1, g, nr =>
    let c := g.clusters nr
    let g1 := incFree (setCluster g nr { c with used := 0, dirty := 1 })
    if c.next = 0 then (g1, .ok ())
    else if g1.cluster_count ≤ c.next then (g1, .error erange)
    else free_clusters fuel g1 c.next

/-! ## Truncation (`size_to_clusters`, `do_truncate`) -/

def size_to_clusters (size : Nat) : Nat :=
  size / CLUSTER_DATA + if size % CLUSTER_DATA ≠ 0 then 1 else 0

/-- conversion of a `size_t` sum to `off_t` (the argument
`offset + size` that `ghostfs_write` passes to `do_truncate`). -/
def int64OfUInt64 (x : Nat) : Int :=
  if x % 2 ^ 64 < 2 ^ 63 then (x % 2 ^ 64 : Int) else (x % 2 ^ 64 : Int) - 2 ^ 64

/-- tail of `do_truncate` after the new terminal cluster was located:
`copt` is the optional number of the cluster at index `count - 1` (the C
pointer `c`, null when `count == 0`), `next` the chain pointer captured
from it (or `entry->cluster` when `count == 0`), `sz` the entry's size
and `count = size_to_clusters(min(sz, ns))`. -/
def do_truncate_resize (g : Ghostfs) (it : DirIter) (ns : Nat) (copt : Option Nat)
    (next : Nat) (sz count : Nat) : Ghostfs × Except Nat Unit :=
  let finish : Ghostfs → Ghostfs × Except Nat Unit := fun gx =>
    (markNr (setEntrySizeAtIter gx it ns false) it.cluster_nr, .ok ())
  if sz < ns then
    -- growth: zero the tail of the final existing cluster, then append
    let used := sz % CLUSTER_DATA
    let g1 :=
      if used ≠ 0 then
        match copt with
        | some cnr =>
          let c := g.clusters cnr
          setCluster g cnr
            { c with
              data := (fun j => if used ≤ j ∧ j < CLUSTER_DATA then 0 else c.data j),
              dirty := 1 }
        | none => g -- C would dereference a null `c`; unreachable: used ≠ 0 forces count ≠ 0
      else g
    let alloc := size_to_clusters ns - count
    if alloc ≠ 0 then
      match alloc_clusters g1 alloc true with
      | (g2, .error r) => (g2, .error r)
      | (g2, .ok ret) =>
        match copt with
        | some cnr =>
          finish (setCluster g2 cnr { g2.clusters cnr with next := ret, dirty := 1 })
        | none => finish (setEntryClusterAtIter g2 it ret)
    else finish g1
  else if ns < sz then
    -- shrink: cut the chain after the new terminal and free the rest
    if next ≠ 0 then
      let g1 :=
        match copt with
        | some cnr => setCluster g cnr { g.clusters cnr with next := 0, dirty := 1 }
        | none => g
      if g1.cluster_count ≤ next then (g1, .error erange)
      else
        let (g2, _) := free_clusters (g1.cluster_count + 1) g1 next
        finish g2
    else finish g
  else finish g

/-- `do_truncate(gfs, it, new_size)` (fs.c:507-576). -/
def do_truncate (g : Ghostfs) (it : DirIter) (new_size : Int) : Ghostfs × Except Nat Unit :=
  if new_size < 0 then (g, .error einval)
  else if (FILESIZE_MAX : Int) < new_size then (g, .error efbig)
  else
    let e := entryAtIter g it
    if dir_entry_is_directory e then (g, .error eisdir)
    else
      let ns := new_size.toNat
      let count := size_to_clusters (min e.size ns)
      if count ≠ 0 then
        match cluster_at_nr g e.cluster (count - 1) with
        | .error r => (g, .error r)
        | .ok cnr => do_truncate_resize g it ns (some cnr) (g.clusters cnr).next e.size count
      else do_truncate_resize g it ns none e.cluster e.size count

/-! ## File read and write (`ghostfs_write`, `ghostfs_read`) -/

/-- the copy loop of `ghostfs_write`: write `size` bytes of `buf` into
the chain starting in cluster `cnr` at in-cluster offset `off`.  Each
iteration consumes at least one byte when `off < 4092`, so fuel
`size + 1` suffices. -/
def write_loop : Nat → Ghostfs → Nat → List Nat → Nat → Nat → Nat → Ghostfs × Except Nat Nat
  | 0, g, _, _, _, _, _ => (g, .error efuel)
  | fuel + 1, g, cnr, buf, size, off, written =>
    let w0 := min size CLUSTER_DATA
    let w := if CLUSTER_DATA < off + w0 then w0 - (off + w0 - CLUSTER_DATA) else w0
    let c := g.clusters cnr
    let g1 := setCluster g cnr
      { c with
        data := (fun j => if off ≤ j ∧ j < off + w then buf.getD (j - off) 0 else c.data j),
        dirty := 1 }
    if size - w = 0 then (g1, .ok (written + w))
    else
      match cluster_next_nr g1 cnr with
      | .error r => (g1, .error r)
      | .ok nxt => write_loop fuel g1 nxt (buf.drop w) (size - w) 0 (written + w)

/-- `ghostfs_write(gfs, gentry, buf, size, offset)` (fs.c:647-695),
returning the number of bytes written. -/
def ghostfs_write (g : Ghostfs) (it : DirIter) (buf : List Nat) (offset : Int) :
    Ghostfs × Except Nat Nat :=
  let size := buf.length
  if offset < 0 then (g, .error einval)
  else if (size + offset.toNat) % 2 ^ 64 < size then (g, .error eoverflow)
  else
    let e := entryAtIter g it
    let step : Ghostfs × Except Nat Unit :=
      if e.size < offset.toNat + size then
        do_truncate g it (int64OfUInt64 (offset.toNat + size))
      else (g, .ok ())
    match step with
    | (g1, .error r) => (g1, .error r)
    | (g1, .ok _) =>
      let e1 := entryAtIter g1 it
      match cluster_at_nr g1 e1.cluster (offset.toNat / CLUSTER_DATA) with
      | .error r => (g1, .error r)
      | .ok cnr => write_loop (size + 1) g1 cnr buf size (offset.toNat % CLUSTER_DATA) 0

/-- the copy loop of `ghostfs_read`, accumulating the bytes read. -/
def read_loop : Nat → Ghostfs → Nat → Nat → Nat → List Nat → Except Nat (List Nat)
  | 0, _, _, _, _, _ => .error efuel
  | fuel + 1, g, cnr, size, off, acc =>
    let r0 := min size CLUSTER_DATA
    let r := if CLUSTER_DATA < off + r0 then r0 - (off + r0 - CLUSTER_DATA) else r0
    let c := g.clusters cnr
    let acc1 := acc ++ (List.range r).map (fun k => c.data (off + k))
    if size - r = 0 then .ok acc1
    else
      match cluster_next_nr g cnr with
      | .error e => .error e
      | .ok nxt => read_loop fuel g nxt (size - r) 0 acc1

/-- `ghostfs_read(gfs, gentry, buf, size, offset)` (fs.c:697-747),
returning the bytes read (the C function fills `buf` and returns their
count).  The read path performs no state mutation. -/
def ghostfs_read (g : Ghostfs) (it : DirIter) (size0 : Nat) (offset : Int) :
    Except Nat (List Nat) :=
  if offset < 0 then .error einval
  else if (size0 + offset.toNat) % 2 ^ 64 < size0 then .error eoverflow
  else
    let e := entryAtIter g it
    if e.size < offset.toNat then .ok []
    else
      let size := if e.size < offset.toNat + size0 then e.size - offset.toNat else size0
      if size = 0 then .ok []
      else
        match cluster_at_nr g e.cluster (offset.toNat / CLUSTER_DATA) with
        | .error r => .error r
        | .ok cnr => read_loop (size + 1) g cnr size (offset.toNat % CLUSTER_DATA) []

/-! ## C-string helpers

Paths and names are byte lists holding the C string's content without the
terminating NUL; reading past the end of a list yields the NUL. -/

/-- dereference the current position of a C string (`*p`). -/
def chr (l : List Nat) : Nat := l.headD 0

/-- `strlen`. -/
def strlenZ (l : List Nat) : Nat := (l.takeWhile (· ≠ 0)).length

/-- `strncmp(a, b, n) == 0` (stops at the first difference or at a
matching NUL). -/
def cstrncmpZ : Nat → List Nat → List Nat → Bool
  | 0, _, _ => true
  | n + 1, a, b =>
    if chr a = chr b then
      if chr a = 0 then true else cstrncmpZ n a.tail b.tail
    else false

/-- `strchr(l, '/')`, returning the suffix after the first slash (the C
callers only ever use `next + 1`). -/
def strchrSlash : List Nat → Option (List Nat)
  | [] => none
  | x :: r => if x = 47 then some r else strchrSlash r

/-- `component_eq(comp, name, n)` (fs.c:172-183): compare one path
component (delimited by `/` or end) against a filename field. -/
def component_eq (comp name : List Nat) : Nat → Bool
  | 0 => false
  | n + 1 =>
    if chr comp ≠ 0 ∧ chr comp ≠ 47 ∧ chr comp = chr name then
      component_eq comp.tail name.tail n
    else decide ((chr comp = 0 ∨ chr comp = 47) ∧ chr name = 0)

/-- `last_component` (fs.c:229-237). -/
def last_component : List Nat → List Nat
  | [] => []
  | x :: r => if r.contains 47 ∨ x = 47 then last_component r else x :: r

/-! ## Directory iteration -/

/-- `dir_iter_init(gfs, it, cluster_nr)`. -/
def dir_iter_init (g : Ghostfs) (cluster_nr : Nat) : Except Nat DirIter :=
  match cluster_get g cluster_nr with
  | .error r => .error r
  | .ok _ => .ok ⟨cluster_nr, 0, false⟩

/-- `dir_iter_next(it)` (fs.c:135-155): advance within the cluster while
`entry_nr < CLUSTER_DIRENTS - 1`, otherwise follow the chain. -/
def dir_iter_next (g : Ghostfs) (it : DirIter) : Except Nat DirIter :=
  if CLUSTER_DIRENTS - 1 ≤ it.entry_nr then
    if (g.clusters it.cluster_nr).next = 0 then .error enoent
    else
      match cluster_get g (g.clusters it.cluster_nr).next with
      | .error r => .error r
      | .ok _ => .ok ⟨(g.clusters it.cluster_nr).next, 0, false⟩
  else .ok ⟨it.cluster_nr, it.entry_nr + 1, it.isRoot⟩

/-- fuel that suffices for one complete walk of any acyclic directory
chain (at most 66 entries per cluster, at most `cluster_count`
clusters). -/
def dirFuel (g : Ghostfs) : Nat := 66 * (g.cluster_count + 1) + 1

/-- `dir_iter_next_used(it)`: advance until a used entry is found;
failure leaves the caller's iterator untouched (the C function works on a
temporary copy). -/
def dir_iter_next_used (g : Ghostfs) : Nat → DirIter → Except Nat DirIter
  | 0, _ => .error efuel
  | fuel + 1, it =>
    match dir_iter_next g it with
    | .error r => .error r
    | .ok it' =>
      if dir_entry_used (entryAtIter g it') then .ok it'
      else dir_iter_next_used g fuel it'

/-- the `for (;;)` loop of `dir_iter_lookup` (fs.c:204-226). -/
def lookup_loop (g : Ghostfs) (skip_last : Bool) :
    Nat → List Nat → DirIter → Except Nat DirIter
  | 0, _, _ => .error efuel
  | fuel + 1, comp, it =>
    if component_eq comp (entryAtIter g it).filename FILENAME_SIZE then
      match strchrSlash comp with
      | none => .ok it
      | some rest =>
        if skip_last ∧ strchrSlash rest = none then .ok it
        else if ¬ dir_entry_is_directory (entryAtIter g it) then .error enotdir
        else
          match dir_iter_init g (entryAtIter g it).cluster with
          | .error r => .error r
          | .ok it' => lookup_loop g skip_last fuel rest it'
    else
      match dir_iter_next_used g (dirFuel g) it with
      | .error r => .error r
      | .ok it' => lookup_loop g skip_last fuel comp it'

/-- fuel for a whole path lookup: per component at most one full
directory walk plus one descent. -/
def lookupFuel (g : Ghostfs) (path : List Nat) : Nat :=
  (path.length + 1) * dirFuel g + 1

/-- `dir_iter_lookup(gfs, it, path, skip_last)` (fs.c:185-227).  The
returned iterator has `isRoot = true` exactly when the C code replaced
`it->entry` by `&gfs->root_entry`. -/
def dir_iter_lookup (g : Ghostfs) (path : List Nat) (skip_last : Bool) : Except Nat DirIter :=
  if chr path ≠ 47 then .error einval
  else
    match dir_iter_init g 0 with
    | .error r => .error r
    | .ok it0 =>
      let comp := path.tail
      if chr comp = 0 ∨ (skip_last ∧ strchrSlash comp = none) then
        .ok ⟨it0.cluster_nr, it0.entry_nr, true⟩
      else lookup_loop g skip_last (lookupFuel g path) comp it0

/-- the scan loop of `find_empty_entry`; `.ok (it, true)` is the found
case, `.ok (it, false)` the `-ENOENT`-with-iterator case. -/
def find_empty_loop (g : Ghostfs) : Nat → DirIter → Except Nat (DirIter × Bool)
  | 0, _ => .error efuel
  | fuel + 1, it =>
    if ¬ dir_entry_used (entryAtIter g it) then .ok (it, true)
    else
      match dir_iter_next g it with
      | .error r => if r = enoent then .ok (it, false) else .error r
      | .ok it' => find_empty_loop g fuel it'

/-- `find_empty_entry(gfs, iter, cluster_nr)` (fs.c:243-262). -/
def find_empty_entry (g : Ghostfs) (cluster_nr : Nat) : Except Nat (DirIter × Bool) :=
  match dir_iter_init g cluster_nr with
  | .error r => .error r
  | .ok it => find_empty_loop g (dirFuel g) it

/-- the loop of `dir_contains`. -/
def dir_contains_loop (g : Ghostfs) (name : List Nat) : Nat → DirIter → Except Nat Unit
  | 0, _ => .error efuel
  | fuel + 1, it =>
    if cstrncmpZ FILENAME_SIZE (entryAtIter g it).filename name then .ok ()
    else
      match dir_iter_next_used g (dirFuel g) it with
      | .error r => .error r
      | .ok it' => dir_contains_loop g name fuel it'

/-- `dir_contains(gfs, cluster_nr, name)` (fs.c:264-283): `.ok` iff the
directory cluster chain holds an entry with this name. -/
def dir_contains (g : Ghostfs) (cluster_nr : Nat) (name : List Nat) : Except Nat Unit :=
  match dir_iter_init g cluster_nr with
  | .error r => .error r
  | .ok it => dir_contains_loop g name (dirFuel g) it

/-! ## Entry creation, removal, rename -/

/-- `strcpy` into a 56-byte filename field held as a list (root-entry
variant; unreachable in practice, see `create_entry_write`). -/
def strcpyList (dst src : List Nat) : List Nat :=
  let s := src.takeWhile (· ≠ 0)
  s ++ [0] ++ dst.drop (s.length + 1)

/-- write the name through the iterator (`strcpy(it.entry->filename,
name)`). -/
def setFilenameAtIter (g : Ghostfs) (it : DirIter) (name : List Nat) : Ghostfs :=
  if it.isRoot then
    { g with root_entry := { g.root_entry with filename := strcpyList g.root_entry.filename name } }
  else
    setCluster g it.cluster_nr
      (putFilename (g.clusters it.cluster_nr) it.entry_nr (name.takeWhile (· ≠ 0)))

/-- raw u32 store into the size field (`entry->size = v`, used by
rename's field copy — no flag masking). -/
def setRawSizeAtIter (g : Ghostfs) (it : DirIter) (v : Nat) : Ghostfs :=
  if it.isRoot then { g with root_entry := { g.root_entry with size := v % 2 ^ 32 } }
  else setCluster g it.cluster_nr (putSizeBytes (g.clusters it.cluster_nr) it.entry_nr v)

/-- the final writes of `create_entry` (fs.c:430-438): name, size 0 with
flag, starting cluster, dirty mark.  `it` always denotes a real slot here
(`find_empty_entry` never returns the root entry). -/
def create_entry_write (g : Ghostfs) (it : DirIter) (name : List Nat) (is_dir : Bool)
    (cluster_nr : Nat) : Ghostfs × Except Nat DirIter :=
  let g1 := setFilenameAtIter g it name
  let g2 := setEntrySizeAtIter g1 it 0 is_dir
  let g3 := setEntryClusterAtIter g2 it cluster_nr
  (markNr g3 it.cluster_nr, .ok it)

/-- second half of `create_entry` (fs.c:419-438): optional allocation of
the new directory's cluster with rollback of a parent chain extension
(`ext`/`prev`), then the entry writes. -/
def create_entry_fill (g : Ghostfs) (it : DirIter) (ext : Option Nat) (prev : Nat)
    (name : List Nat) (is_dir : Bool) : Ghostfs × Except Nat DirIter :=
  if is_dir then
    match alloc_clusters g 1 true with
    | (g1, .error r) =>
      match ext with
      | some nx =>
        let (g2, _) := free_clusters (g1.cluster_count + 1) g1 nx
        (setNext g2 prev 0, .error r)
      | none => (g1, .error r)
    | (g1, .ok cnr) => create_entry_write g1 it name is_dir cnr
  else create_entry_write g it name is_dir 0

/-- `create_entry(gfs, path, is_dir, entry)` (fs.c:375-439), returning
the iterator of the written entry. -/
def create_entry (g : Ghostfs) (path : List Nat) (is_dir : Bool) :
    Ghostfs × Except Nat DirIter :=
  match dir_iter_lookup g path true with
  | .error r => (g, .error r)
  | .ok it =>
    if ¬ dir_entry_is_directory (entryAtIter g it) then (g, .error enotdir)
    else
      let name := last_component path
      if FILENAME_SIZE - 1 < strlenZ name then (g, .error enametoolong)
      else if chr name = 0 then (g, .error einval)
      else
        match dir_contains g (entryAtIter g it).cluster name with
        | .ok _ => (g, .error eexist)
        | .error _ =>
          match find_empty_entry g (entryAtIter g it).cluster with
          | .error r => (g, .error r)
          | .ok (it2, true) => create_entry_fill g it2 none 0 name is_dir
          | .ok (it2, false) =>
            match alloc_clusters g 1 true with
            | (g1, .error nr) => (g1, .error nr)
            | (g1, .ok nr) =>
              let prev := it2.cluster_nr
              let it3 :=
                match find_empty_entry g1 nr with
                | .ok (x, _) => x
                | .error _ => it2
              let g2 := setCluster g1 prev { g1.clusters prev with next := nr, dirty := 1 }
              create_entry_fill g2 it3 (some nr) prev name is_dir

def ghostfs_create (g : Ghostfs) (path : List Nat) : Ghostfs × Except Nat Unit :=
  let (g', r) := create_entry g path false
  (g', r.map fun _ => ())

def ghostfs_mkdir (g : Ghostfs) (path : List Nat) : Ghostfs × Except Nat Unit :=
  let (g', r) := create_entry g path true
  (g', r.map fun _ => ())

/-- the `unlink:` tail of `remove_entry`: zero the entry's first filename
byte and mark its cluster. -/
def unlink_entry (g : Ghostfs) (link : DirIter) : Ghostfs × Except Nat Unit :=
  let g1 :=
    if link.isRoot then
      { g with root_entry :=
          { g.root_entry with filename := 0 :: g.root_entry.filename.tail } }
    else
      setCluster g link.cluster_nr
        (clearFilename (g.clusters link.cluster_nr) link.entry_nr)
  (markNr g1 link.cluster_nr, .ok ())

/-- `remove_entry(gfs, path, is_dir)` (fs.c:451-490). -/
def remove_entry (g : Ghostfs) (path : List Nat) (is_dir : Bool) : Ghostfs × Except Nat Unit :=
  match dir_iter_lookup g path false with
  | .error r => (g, .error r)
  | .ok link =>
    if link.isRoot then (g, .error einval)
    else
      let e := entryAtIter g link
      if is_dir ≠ dir_entry_is_directory e then
        (g, .error (if is_dir then enotdir else eisdir))
      else if e.cluster = 0 then unlink_entry g link
      else
        match dir_iter_init g e.cluster with
        | .error r => (g, .error r)
        | .ok it =>
          let freeAndUnlink : Ghostfs × Except Nat Unit :=
            let (g1, _) := free_clusters (g.cluster_count + 1) g it.cluster_nr
            unlink_entry g1 link
          if is_dir then
            if dir_entry_used (entryAtIter g it) then (g, .error enotempty)
            else
              match dir_iter_next_used g (dirFuel g) it with
              | .ok _ => (g, .error enotempty)
              | .error r => if r = enoent then freeAndUnlink else (g, .error r)
          else freeAndUnlink

def ghostfs_unlink (g : Ghostfs) (path : List Nat) : Ghostfs × Except Nat Unit :=
  remove_entry g path false

def ghostfs_rmdir (g : Ghostfs) (path : List Nat) : Ghostfs × Except Nat Unit :=
  remove_entry g path true

/-- `ghostfs_truncate(gfs, path, new_size)` (fs.c:578-588). -/
def ghostfs_truncate (g : Ghostfs) (path : List Nat) (new_size : Int) :
    Ghostfs × Except Nat Unit :=
  match dir_iter_lookup g path false with
  | .error r => (g, .error r)
  | .ok it => do_truncate g it new_size

/-- `ghostfs_open(gfs, filename, pentry)` (fs.c:620-640), returning the
open entry's iterator. -/
def ghostfs_open (g : Ghostfs) (filename : List Nat) : Except Nat DirIter :=
  match dir_iter_lookup g filename false with
  | .error r => .error r
  | .ok it =>
    if dir_entry_is_directory (entryAtIter g it) then .error eisdir else .ok it

/-- `ghostfs_rename(gfs, path, newpath)` (fs.c:590-618): lookup the old
entry, best-effort remove of the new path, create the new entry as a
file, zero the old name, then copy the old entry's raw `size` and
`cluster` fields onto the new entry. -/
def ghostfs_rename (g : Ghostfs) (path newpath : List Nat) : Ghostfs × Except Nat Unit :=
  match dir_iter_lookup g path false with
  | .error r => (g, .error r)
  | .ok it =>
    if it.isRoot then (g, .error einval)
    else
      let (g1, _) := remove_entry g newpath false
      match create_entry g1 newpath false with
      | (g2, .error r) => (g2, .error r)
      | (g2, .ok entry_it) =>
        let g3 := markNr
          (setCluster g2 it.cluster_nr (clearFilename (g2.clusters it.cluster_nr) it.entry_nr))
          it.cluster_nr
        let old := entryAtIter g3 it
        let g4 := setRawSizeAtIter g3 entry_it old.size
        let g5 := setEntryClusterAtIter g4 entry_it old.cluster
        (g5, .ok ())

/-! ## The stegger byte channel and the on-disk layout -/

/-- Modelled from the spec: the stegger (stegger.c, not under src/)
presents a flat byte-addressable store with a fixed capacity; reads and
writes fail with `out-of-range` when `offset + n > capacity`. -/
structure Stegger where
  capacity : Nat
  bytes : Nat → Nat

/-- Modelled from the spec: `stegger_read(buf, n, offset)` returns the
`n` bytes at `offset`. -/
def stegger_read (st : Stegger) (n off : Nat) : Except Nat (List Nat) :=
  if st.capacity < off + n then .error erange
  else .ok ((List.range n).map fun k => st.bytes (off + k))

/-- Modelled from the spec: `stegger_write(buf, n, offset)` overwrites
the `n` bytes at `offset` (the buffer is a byte function, as a C buffer
pointer is). -/
def stegger_write (st : Stegger) (buf : Nat → Nat) (n off : Nat) : Stegger × Except Nat Unit :=
  if st.capacity < off + n then (st, .error erange)
  else
    ({ st with bytes := fun j => if off ≤ j ∧ j < off + n then buf (j - off) else st.bytes j },
     .ok ())

/-- the raw 4096 bytes of a `struct cluster` (payload, little-endian
`next`, `used`, `dirty`). -/
def clusterBytes (c : Cluster) : Nat → Nat := fun j =>
  if j < CLUSTER_DATA then c.data j % 256
  else if j = 4092 then c.next % 256
  else if j = 4093 then c.next / 256 % 256
  else if j = 4094 then c.used % 256
  else c.dirty % 256

/-- the raw 2 bytes of `struct ghostfs_header` (little-endian u16
`cluster_count`). -/
def headerBytes (count : Nat) : List Nat := [count % 256, count / 256 % 256]

/-- the cluster value obtained by deserializing cluster `nr` from the
store; `read_cluster` clears the dirty byte right after reading. -/
def storeCluster (st : Stegger) (nr : Nat) : Cluster :=
  { data := fun j => st.bytes (18 + 4096 * nr + j)
  , next := st.bytes (18 + 4096 * nr + 4092) + 256 * st.bytes (18 + 4096 * nr + 4093)
  , used := st.bytes (18 + 4096 * nr + 4094)
  , dirty := 0 }

/-- `read_cluster(gfs, cluster, nr)` (fs.c:923-934). -/
def read_cluster (st : Stegger) (nr : Nat) : Except Nat Cluster :=
  match stegger_read st 4096 (18 + 4096 * nr) with
  | .error r => .error r
  | .ok _ => .ok (storeCluster st nr)

/-- `write_cluster(gfs, cluster, nr)` (fs.c:910-921): write the raw 4096
bytes first, then clear the in-memory dirty byte. -/
def write_cluster (st : Stegger) (c : Cluster) (nr : Nat) : Stegger × Cluster × Except Nat Unit :=
  match stegger_write st (clusterBytes c) 4096 (18 + 4096 * nr) with
  | (st', .ok _) => (st', { c with dirty := 0 }, .ok ())
  | (st', .error r) => (st', c, .error r)

/-- `ghostfs_check(gfs)` (fs.c:936-966): read the stored MD5, the header
and cluster 0, recompute MD5(header bytes concatenated with cluster 0's
4096 bytes) and compare; returns the decoded `cluster_count` on success
and `-EIO` on mismatch.  `md5` is the abstract digest function (md5.c is
not under src/). -/
def ghostfs_check (md5 : List Nat → List Nat) (st : Stegger) : Except Nat Nat :=
  match stegger_read st 16 0 with
  | .error r => .error r
  | .ok md5_fs =>
    match stegger_read st 2 16 with
    | .error r => .error r
    | .ok hdrB =>
      match stegger_read st 4096 18 with
      | .error r => .error r
      | .ok rootB =>
        if md5 (hdrB ++ rootB) = md5_fs then .ok (hdrB.getD 0 0 + 256 * hdrB.getD 1 0)
        else .error eio

/-- `write_header(gfs, cluster0)` (fs.c:968-995): write
MD5(header bytes concatenated with cluster 0's raw bytes) at offset 0,
the header at 16, then cluster 0 at 18. -/
def write_header (md5 : List Nat → List Nat) (st : Stegger) (count : Nat) (c0 : Cluster) :
    Stegger × Cluster × Except Nat Unit :=
  let digest := md5 (headerBytes count ++ (List.range 4096).map (clusterBytes c0))
  match stegger_write st (fun k => digest.getD k 0) 16 0 with
  | (st1, .error r) => (st1, c0, .error r)
  | (st1, .ok _) =>
    match stegger_write st1 (fun k => (headerBytes count).getD k 0) 2 16 with
    | (st2, .error r) => (st2, c0, .error r)
    | (st2, .ok _) => write_cluster st2 c0 0

/-- the `for (i = 1; i < count; i++)` loop of `ghostfs_format`: read each
cluster, clear its `used` byte, write it back. -/
def format_clear_loop (count : Nat) : Nat → Stegger → Nat → Stegger × Except Nat Unit
  | 0, st, _ => (st, .error efuel)
  | fuel + 1, st, i =>
    if count ≤ i then (st, .ok ())
    else
      match read_cluster st i with
      | .error r => (st, .error r)
      | .ok c =>
        match write_cluster st { c with used := 0 } i with
        | (st', _, .ok _) => format_clear_loop count fuel st' (i + 1)
        | (st', _, .error r) => (st', .error r)

/-- `ghostfs_format(stegger)` (fs.c:998-1047). -/
def ghostfs_format (md5 : List Nat → List Nat) (st : Stegger) : Stegger × Except Nat Unit :=
  if st.capacity < 18 + CLUSTER_SIZE then (st, .error enospc)
  else
    let count := min ((st.capacity - 18) / CLUSTER_SIZE) 65535
    match read_cluster st 0 with
    | .error r => (st, .error r)
    | .ok c0 =>
      let c0 := { c0 with next := 0 }
      -- e->filename[0] = '\0' for the 66 entries at payload offsets 0, 62, ..., 4030
      let c0 := { c0 with data := fun j => if j < 4092 ∧ j % 62 = 0 then 0 else c0.data j }
      match write_header md5 st count c0 with
      | (st1, _, .error r) => (st1, .error r)
      | (st1, _, .ok _) => format_clear_loop count (count + 1) st1 1

/-- the free-cluster counting loop of `ghostfs_mount` (fs.c:1113-1125),
which forces clusters `1..count-1` through `cluster_get`. -/
def mount_count_free (st : Stegger) (count : Nat) : Nat → Nat → Nat → Except Nat Nat
  | 0, _, _ => .error efuel
  | fuel + 1, i, acc =>
    if count ≤ i then .ok acc
    else
      match read_cluster st i with
      | .error r => .error r
      | .ok c => mount_count_free st count fuel (i + 1) (if c.used = 0 then (acc + 1) % 65536 else acc)

/-- `ghostfs_mount(pgfs, stegger)` (fs.c:1085-1130): run `ghostfs_check`
and fail with its error without any further initialization; otherwise
build the handle (synthetic root entry with `size = 0x80000000`) and
count the free clusters. -/
def ghostfs_mount (md5 : List Nat → List Nat) (st : Stegger) : Except Nat Ghostfs :=
  match ghostfs_check md5 st with
  | .error r => .error r
  | .ok count =>
    match mount_count_free st count (count + 1) 1 0 with
    | .error r => .error r
    | .ok fc =>
      .ok { cluster_count := count
          , clusters := fun nr => storeCluster st nr
          , root_entry := { filename := List.replicate 56 0, size := 2 ^ 31, cluster := 0 }
          , free_clusters := fc }

/-! ## Derived observations and the specification-side file model -/

/-- the number of clusters with `used = 0` among indices `1..pos-1`. -/
def countFreeUpTo (g : Ghostfs) (pos : Nat) : Nat :=
  ((List.range' 1 (pos - 1)).filter fun i => (g.clusters i).used = 0).length

/-- the number of clusters with `used = 0` among indices
`1..cluster_count-1` (the quantity `free_clusters` is specified to
equal). -/
def count_free (g : Ghostfs) : Nat := countFreeUpTo g g.cluster_count

/-- run a sequence of `ghostfs_write` calls on one open entry; the flag
is `true` iff every call succeeded. -/
def applyWrites (g : Ghostfs) (it : DirIter) : List (List Nat × Nat) → Ghostfs × Bool
  | [] => (g, true)
  | (buf, off) :: rest =>
    match ghostfs_write g it buf (off : Int) with
    | (g', .ok _) => applyWrites g' it rest
    | (g', .error _) => (g', false)

/-- Modelled from the claim's words: the abstract file contents — a size
and a byte function. -/
structure SpecFile where
  size : Nat
  content : Nat → Nat

/-- Modelled from the claim's words: one write applied
last-writer-wins per byte to the zero-extended file. -/
def specWrite (f : SpecFile) (buf : List Nat) (off : Nat) : SpecFile :=
  { size := max f.size (off + buf.length)
  , content := fun i =>
      if off ≤ i ∧ i < off + buf.length then buf.getD (i - off) 0 else f.content i }

/-- the initially empty (all-zero) file. -/
def specFile0 : SpecFile := ⟨0, fun _ => 0⟩

/-- the abstract file obtained by applying a sequence of writes
last-writer-wins per byte to an initially zero-extended file. -/
def specOfWrites (ws : List (List Nat × Nat)) : SpecFile :=
  ws.foldl (fun f bo => specWrite f bo.1 bo.2) specFile0

/-! ## The file-chain well-formedness invariant -/

/-- the byte at logical offset `i` of a file stored in the cluster list
`chain`. -/
def chainByte (g : Ghostfs) (chain : List Nat) (i : Nat) : Nat :=
  (g.clusters (chain.getD (i / CLUSTER_DATA) 0)).data (i % CLUSTER_DATA)

/-- well-formedness of an open file entry: the iterator denotes a real
slot inside a live directory cluster, the entry is a file whose chain is
`chain` — the right length, correctly linked, zero-terminated, made of
distinct in-range used clusters, and disjoint from the directory cluster
holding the entry.  `ghostfs_create` establishes this with
`chain = []`. -/
structure FileWF (g : Ghostfs) (it : DirIter) (chain : List Nat) : Prop where
  cc_le : g.cluster_count ≤ 65536
  not_root : it.isRoot = false
  idx : it.entry_nr < CLUSTER_DIRENTS
  dc_lt : it.cluster_nr < g.cluster_count
  dc_used : it.cluster_nr = 0 ∨ (g.clusters it.cluster_nr).used ≠ 0
  size_lt : (entryAtIter g it).size < 2 ^ 31
  len : chain.length = size_to_clusters (entryAtIter g it).size
  head : (entryAtIter g it).cluster = chain.headD 0
  links : ∀ k, k + 1 < chain.length →
    (g.clusters (chain.getD k 0)).next = chain.getD (k + 1) 0
  last_next : ∀ h : chain ≠ [], (g.clusters (chain.getLast h)).next = 0
  nodup : chain.Nodup
  mem : ∀ p ∈ chain, 1 ≤ p ∧ p < g.cluster_count ∧ (g.clusters p).used ≠ 0
  dc_chain : it.cluster_nr ∉ chain

/-- the abstraction relation between a well-formed concrete file and the
specification-side file. -/
def FileAbs (g : Ghostfs) (it : DirIter) (chain : List Nat) (f : SpecFile) : Prop :=
  (entryAtIter g it).size = f.size ∧ ∀ i, i < f.size → chainByte g chain i = f.content i

/-- the loop invariant of the allocation scan of `alloc_clusters`
relative to the entry state `g0`: `ps` lists the clusters claimed so
far, in claim order. -/
structure AllocInv (zero : Bool) (g0 gcur : Ghostfs) (ps : List Nat)
    (pos allocd first prev : Nat) : Prop where
  cc : gcur.cluster_count = g0.cluster_count
  re : gcur.root_entry = g0.root_entry
  fc : gcur.free_clusters = (g0.free_clusters + 65535 * ps.length) % 65536
  alen : allocd = ps.length
  untouched : ∀ q, q ∉ ps → gcur.clusters q = g0.clusters q
  memb : ∀ p ∈ ps, 1 ≤ p ∧ p < pos ∧ p < g0.cluster_count ∧ (g0.clusters p).used = 0
  cur_used : ∀ p ∈ ps, (gcur.clusters p).used = 1
  cur_data : ∀ p ∈ ps, ∀ j, (gcur.clusters p).data j =
    if zero = true ∧ j < CLUSTER_DATA then 0 else (g0.clusters p).data j
  links : ∀ k, k + 1 < ps.length → (gcur.clusters (ps.getD k 0)).next = ps.getD (k + 1) 0
  nodup : ps.Nodup
  hfirst : first = ps.headD 0
  hprev : ∀ h : ps ≠ [], prev = ps.getLast h
  cnt : allocd = countFreeUpTo g0 pos

/-! ## Derived observations of the store -/

/-- the `cluster_count` stored in the superblock header. -/
def decodedCount (st : Stegger) : Nat := st.bytes 16 + 256 * st.bytes 17

/-- the 16 digest bytes stored at offset 0. -/
def storedMd5 (st : Stegger) : List Nat := (List.range 16).map st.bytes

/-- the byte string `ghostfs_check` hashes: the 2 header bytes followed
by cluster 0's 4096 bytes. -/
def checkInput (st : Stegger) : List Nat :=
  ((List.range 2).map fun k => st.bytes (16 + k)) ++
    ((List.range 4096).map fun k => st.bytes (18 + k))

/-! ## Concrete example states -/

/-- an all-zero free cluster. -/
def zeroCl : Cluster := ⟨fun _ => 0, 0, 0, 0⟩

/-- root-directory payload holding one file entry `"a"` with size 5 and
first cluster 1 in slot 0. -/
def exRootData : Nat → Nat := fun j =>
  if j = 0 then 97 else if j = 56 then 5 else if j = 60 then 1 else 0

/-- a 2-cluster filesystem: the root directory holds file `"a"`
(size 5, chain = cluster 1); cluster 1 is used.  `free_clusters = 0`
matches the used bits. -/
def exG : Ghostfs :=
  { cluster_count := 2
  , clusters := fun nr =>
      if nr = 0 then ⟨exRootData, 0, 1, 0⟩
      else if nr = 1 then ⟨fun j => 10 + j, 0, 1, 0⟩ else zeroCl
  , root_entry := ⟨List.replicate 56 0, 2 ^ 31, 0⟩
  , free_clusters := 0 }

/-- the path `"/a"`. -/
def exPath : List Nat := [47, 97]

/-- a filesystem whose root holds the freshly created empty file `"b"`
(size 0, cluster 0). -/
def exGEmpty : Ghostfs :=
  { cluster_count := 2
  , clusters := fun nr => if nr = 0 then ⟨fun j => if j = 0 then 98 else 0, 0, 1, 0⟩ else zeroCl
  , root_entry := ⟨List.replicate 56 0, 2 ^ 31, 0⟩
  , free_clusters := 1 }

/-- the iterator of slot 0 of cluster 0 (the open entry of `"a"` or
`"b"`). -/
def exIt : DirIter := ⟨0, 0, false⟩

/-- a filesystem whose root holds the directory `"d"` (flag bit set,
cluster 1); cluster 1 is its empty directory cluster. -/
def exGDir : Ghostfs :=
  { cluster_count := 2
  , clusters := fun nr =>
      if nr = 0 then
        ⟨fun j => if j = 0 then 100 else if j = 59 then 128 else if j = 60 then 1 else 0, 0, 1, 0⟩
      else if nr = 1 then ⟨fun _ => 0, 0, 1, 0⟩ else zeroCl
  , root_entry := ⟨List.replicate 56 0, 2 ^ 31, 0⟩
  , free_clusters := 0 }

/-- a store of exactly `18 + 4096` zero bytes. -/
def exStore0 : Stegger := ⟨4114, fun _ => 0⟩

/-- a cluster whose in-memory dirty flag is set. -/
def exDirtyCluster : Cluster := ⟨fun _ => 0, 0, 1, 1⟩

/-- a concrete digest function used to instantiate the abstract `md5`
parameter in witnesses. -/
def exMd5 : List Nat → List Nat := fun _ => List.replicate 16 0

/-- a vacant filesystem handle (used as the default of `Except.getD`). -/
def noFs : Ghostfs := ⟨0, fun _ => zeroCl, ⟨[], 0, 0⟩, 0⟩

/-- the filesystem obtained by formatting and mounting the concrete
`18 + 4096`-byte store. -/
def exMounted : Ghostfs :=
  (ghostfs_mount exMd5 (ghostfs_format exMd5 exStore0).1).toOption.getD noFs

/-- the root cluster value `ghostfs_format` writes on the all-zero
`18 + 4096`-byte store (all 66 entry slots cleared). -/
def fmtC0 : Cluster :=
  { data := fun j => if j < 4092 ∧ j % 62 = 0 then 0 else 0
  , next := 0, used := 0, dirty := 0 }

/-- the byte string `ghostfs_format` hashes for the superblock of the
all-zero `18 + 4096`-byte store: the header `[1, 0]` followed by the raw
root cluster. -/
def fmtArg : List Nat := [1, 0] ++ (List.range 4096).map (clusterBytes fmtC0)

/-- the store produced by formatting the all-zero `18 + 4096`-byte store
with digest function `md5`. -/
def fmtStore (md5 : List Nat → List Nat) : Stegger :=
  { capacity := 4114
  , bytes := fun j =>
      if 18 ≤ j ∧ j < 4114 then clusterBytes fmtC0 (j - 18)
      else if 16 ≤ j ∧ j < 18 then [1, 0].getD (j - 16) 0
      else if 0 ≤ j ∧ j < 16 then (md5 fmtArg).getD j 0
      else 0 }

/-- the mounted single-cluster filesystem: one all-zero cluster holding
the empty root directory. -/
def gOneCluster : Ghostfs :=
  { cluster_count := 1
  , clusters := fun _ => zeroCl
  , root_entry := { filename := List.replicate 56 0, size := 2 ^ 31, cluster := 0 }
  , free_clusters := 0 }

/-! # Theorems -/

/-- C3: the claim is right and the code is wrong.  On the concrete
2-cluster filesystem whose root holds file `"/a"` with size 5 and chain
`[1]`, `ghostfs_truncate` to 0 succeeds, frees cluster 1 and sets the
size to 0 — but leaves the entry's `cluster` field at 1 instead of
clearing it to 0 as the specification requires (`do_truncate` never
assigns `entry->cluster` in its shrink path, fs.c:557-570). -/
theorem C3_truncate_to_zero_keeps_cluster :
    (ghostfs_truncate exG exPath 0).2 = .ok () ∧
    (getEntry (((ghostfs_truncate exG exPath 0).1).clusters 0) 0).size = 0 ∧
    ((ghostfs_truncate exG exPath 0).1.clusters 1).used = 0 ∧
    (getEntry (((ghostfs_truncate exG exPath 0).1).clusters 0) 0).cluster = 1 := by
  decide

/-- C2: the claim is right and the code is wrong.  On the same concrete
filesystem, truncating `"/a"` to size 0 and then unlinking it makes
`ghostfs_unlink` free the stale chain a second time (the entry's
`cluster` field was left dangling by `do_truncate`), so afterwards
`free_clusters = 2` while only one cluster in `[1, cluster_count)` has
`used = 0`. -/
theorem C2_free_counter_desync :
    (ghostfs_truncate exG exPath 0).2 = .ok () ∧
    (ghostfs_unlink ((ghostfs_truncate exG exPath 0).1) exPath).2 = .ok () ∧
    ((ghostfs_unlink ((ghostfs_truncate exG exPath 0).1) exPath).1).free_clusters = 2 ∧
    count_free ((ghostfs_unlink ((ghostfs_truncate exG exPath 0).1) exPath).1) = 1 := by
  decide

/-- C10: for an open entry with size 0 and cluster 0 (a freshly created
empty file), a zero-length `ghostfs_write` at offset 0 walks the
nonexistent chain through `cluster_at` before checking whether any bytes
remain, and so fails with `-EIO`, while a zero-length `ghostfs_read`
returns 0 bytes. -/
theorem C10_zero_write_fails_zero_read_ok (g : Ghostfs) (it : DirIter)
    (_h1 : (entryAtIter g it).size = 0) (h2 : (entryAtIter g it).cluster = 0) :
    (ghostfs_write g it [] 0).2 = .error eio ∧ ghostfs_read g it 0 0 = .ok [] := by
  constructor
  · simp [ghostfs_write, h2, cluster_at_nr]
  · simp [ghostfs_read]

/-- C10 witness: the hypotheses hold and the theorem applies on the
concrete filesystem holding the empty file `"/b"`. -/
theorem C10_witness :
    (entryAtIter exGEmpty exIt).size = 0 ∧ (entryAtIter exGEmpty exIt).cluster = 0 ∧
    ((ghostfs_write exGEmpty exIt [] 0).2 = .error eio ∧
      ghostfs_read exGEmpty exIt 0 0 = .ok []) :=
  ⟨by decide, by decide, C10_zero_write_fails_zero_read_ok exGEmpty exIt (by decide) (by decide)⟩

/-- C7 counterexample: the claim says the iterator advances within a
cluster only up to entry index 64 and from there follows the chain, so
that slot 65 is never reached.  On the concrete state `exG` (whose
cluster 0 has `next = 0`) an iterator standing at entry 64 would then
have to fail with `-ENOENT`; the code instead advances it to slot 65 of
the same cluster. -/
theorem C7_counterexample :
    dir_iter_next exG ⟨0, 64, false⟩ = .ok ⟨0, 65, false⟩ ∧
    (exG.clusters 0).next = 0 ∧
    dir_iter_next exG ⟨0, 64, false⟩ ≠ .error enoent := by
  decide

/-- C7 amended: `dir_iter_next` advances within the current cluster up
to entry index 65 (`CLUSTER_DIRENTS - 1`), and only an iterator already
standing at index 65 follows the cluster's `next` pointer, failing with
`-ENOENT` when `next = 0`; all 66 slots of a directory cluster are
reachable. -/
theorem C7_iter_next_amended (g : Ghostfs) (it : DirIter) :
    (it.entry_nr < CLUSTER_DIRENTS - 1 →
      dir_iter_next g it = .ok ⟨it.cluster_nr, it.entry_nr + 1, it.isRoot⟩) ∧
    (CLUSTER_DIRENTS - 1 ≤ it.entry_nr → (g.clusters it.cluster_nr).next = 0 →
      dir_iter_next g it = .error enoent) ∧
    (CLUSTER_DIRENTS - 1 ≤ it.entry_nr → (g.clusters it.cluster_nr).next ≠ 0 →
      (g.clusters it.cluster_nr).next < g.cluster_count →
      dir_iter_next g it = .ok ⟨(g.clusters it.cluster_nr).next, 0, false⟩) := by
  refine ⟨fun h => ?_, fun h h0 => ?_, fun h h0 hlt => ?_⟩
  · simp [dir_iter_next, Nat.not_le.2 h]
  · simp [dir_iter_next, h, h0]
  · simp [dir_iter_next, h, h0, cluster_get, Nat.not_le.2 hlt]

/-- C7 witness: the amended theorem applied at a concrete iterator
standing at entry 64, which advances to the (claimed unreachable)
slot 65. -/
theorem C7_witness :
    (64 : Nat) < CLUSTER_DIRENTS - 1 ∧
    dir_iter_next exG ⟨0, 64, false⟩ = .ok ⟨0, 65, false⟩ :=
  ⟨by decide, (C7_iter_next_amended exG ⟨0, 64, false⟩).1 (by decide)⟩

/-- C8 counterexample: the claim says a successful rename of a directory
leaves the new entry with the `is_dir` flag clear.  On the concrete
filesystem whose root holds the directory `"/d"`, `rename("/d", "/e")`
succeeds and the resulting entry at `"/e"` still has its `is_dir` flag
set (the raw `size` field, bit 31 included, is copied by
`entry->size = it.entry->size`, fs.c:614). -/
theorem C8_counterexample :
    dir_iter_lookup exGDir [47, 100] false = .ok ⟨0, 0, false⟩ ∧
    dir_entry_is_directory (entryAtIter exGDir ⟨0, 0, false⟩) = true ∧
    (ghostfs_rename exGDir [47, 100] [47, 101]).2 = .ok () ∧
    dir_iter_lookup ((ghostfs_rename exGDir [47, 100] [47, 101]).1) [47, 101] false =
      .ok ⟨0, 1, false⟩ ∧
    dir_entry_is_directory
      (entryAtIter ((ghostfs_rename exGDir [47, 100] [47, 101]).1) ⟨0, 1, false⟩) = true := by
  decide

/-- C5 counterexample: the claim says the cluster-store write always
puts a zero in the on-disk reserved byte at cluster offset 4095 because
the dirty flag is cleared before writing.  Writing a dirty cluster
(`dirty = 1`) to a concrete store puts `1` in that byte:
`write_cluster` writes the raw bytes first and clears the flag only
afterwards (fs.c:910-921). -/
theorem C5_counterexample :
    (write_cluster exStore0 exDirtyCluster 0).2.2 = .ok () ∧
    (write_cluster exStore0 exDirtyCluster 0).1.bytes (18 + 4095) = 1 := by
  decide

/-- C5 amended: `write_cluster` writes the cluster's 4096 raw bytes
as they stand — so the on-disk byte at cluster offset 4095 equals the
in-memory dirty flag at call time, not necessarily zero — and clears the
in-memory dirty flag only after the successful write. -/
theorem C5_write_cluster_amended (st : Stegger) (c : Cluster) (nr : Nat)
    (h : 18 + 4096 * nr + 4096 ≤ st.capacity) :
    write_cluster st c nr =
      ({ st with bytes := fun j =>
          if 18 + 4096 * nr ≤ j ∧ j < 18 + 4096 * nr + 4096
          then clusterBytes c (j - (18 + 4096 * nr)) else st.bytes j },
        { c with dirty := 0 }, .ok ()) ∧
    (write_cluster st c nr).1.bytes (18 + 4096 * nr + 4095) = c.dirty % 256 := by
  have hcap : ¬ st.capacity < 18 + 4096 * nr + 4096 := not_lt.2 h
  have h1 : write_cluster st c nr =
      ({ st with bytes := fun j =>
          if 18 + 4096 * nr ≤ j ∧ j < 18 + 4096 * nr + 4096
          then clusterBytes c (j - (18 + 4096 * nr)) else st.bytes j },
        { c with dirty := 0 }, .ok ()) := by
    simp [write_cluster, stegger_write, hcap]
  refine ⟨h1, ?_⟩
  rw [h1]
  have harg : 18 + 4096 * nr + 4095 - (18 + 4096 * nr) = 4095 := by omega
  have hin : 18 + 4096 * nr ≤ 18 + 4096 * nr + 4095 ∧
      18 + 4096 * nr + 4095 < 18 + 4096 * nr + 4096 := by omega
  simp only [hin, if_pos, harg, and_self, if_true]
  simp [clusterBytes, CLUSTER_DATA]

/-- C5 witness: the amended theorem applied to the concrete store and
dirty cluster. -/
theorem C5_witness :
    18 + 4096 * 0 + 4096 ≤ exStore0.capacity ∧
    (write_cluster exStore0 exDirtyCluster 0).1.bytes (18 + 4096 * 0 + 4095) =
      exDirtyCluster.dirty % 256 :=
  ⟨by decide, (C5_write_cluster_amended exStore0 exDirtyCluster 0 (by decide)).2⟩

/-- C6 counterexample: the claim says that after formatting and mounting
a store of exactly `18 + 4096` bytes, every create fails with
`no-space`.  Formatting and mounting the all-zero store of that capacity
does yield `cluster_count = 1`, but `ghostfs_create` of the file `"/a"`
succeeds — an empty file needs no cluster; only `ghostfs_mkdir` fails
with `-ENOSPC`. -/
theorem C6_counterexample :
    (ghostfs_format exMd5 exStore0).2 = .ok () ∧
    (ghostfs_mount exMd5 (ghostfs_format exMd5 exStore0).1).map (fun _ => ()) = .ok () ∧
    exMounted.cluster_count = 1 ∧
    (ghostfs_create exMounted [47, 97]).2 = .ok () ∧
    (ghostfs_mkdir exMounted [47, 97]).2 = .error enospc := by
  decide

/-! ## Mount and integrity check (C4) -/

/-- `ghostfs_check` succeeds exactly when the recomputed digest of the
header and cluster 0 equals the stored digest, returning the decoded
cluster count, and fails with `-EIO` otherwise. -/
theorem ghostfs_check_eq (md5 : List Nat → List Nat) (st : Stegger)
    (h1 : 4114 ≤ st.capacity) :
    ghostfs_check md5 st =
      if md5 (checkInput st) = storedMd5 st then .ok (decodedCount st) else .error eio := by
  have c1 : ¬ st.capacity < 0 + 16 := by omega
  have c2 : ¬ st.capacity < 16 + 2 := by omega
  have c3 : ¬ st.capacity < 18 + 4096 := by omega
  have hr2 : List.range 2 = [0, 1] := rfl
  simp only [ghostfs_check, stegger_read, c1, c2, c3, if_false, checkInput, storedMd5,
    decodedCount, Nat.zero_add, hr2, List.map_cons, List.map_nil, List.getD_cons_zero,
    List.getD_cons_succ]

/-- the free-cluster counting loop of mount succeeds whenever the store
is large enough for every cluster the header announces. -/
theorem mount_count_free_ok (st : Stegger) (count : Nat)
    (h : 18 + 4096 * count ≤ st.capacity) :
    ∀ fuel i acc, count - i < fuel → ∃ v, mount_count_free st count fuel i acc = .ok v := by
  intro fuel
  induction fuel with
  | zero => intro i acc h0; omega
  | succ n ih =>
    intro i acc hf
    by_cases hc : count ≤ i
    · exact ⟨acc, by simp [mount_count_free, hc]⟩
    · have hcap : ¬ st.capacity < 18 + 4096 * i + 4096 := by
        push_neg
        calc 18 + 4096 * i + 4096 = 18 + 4096 * (i + 1) := by ring
        _ ≤ 18 + 4096 * count := by
            have : i + 1 ≤ count := by omega
            omega
        _ ≤ st.capacity := h
      obtain ⟨v, hv⟩ := ih (i + 1)
        (if (storeCluster st i).used = 0 then (acc + 1) % 65536 else acc) (by omega)
      exact ⟨v, by simp [mount_count_free, hc, read_cluster, stegger_read, hcap, hv]⟩

/-- C4: mount reads the stored 16-byte digest, the 2-byte header and
cluster 0, recomputes MD5(header bytes concatenated with cluster 0's
bytes) and compares: when the digests differ it fails with `-EIO`
without constructing a filesystem handle, and when they are equal it
succeeds (given a store large enough for the announced cluster count),
yielding a handle whose clusters come straight from the store.  The
digest function is abstract: this holds for every `md5`. -/
theorem C4_mount_checks_md5 (md5 : List Nat → List Nat) (st : Stegger)
    (h1 : 4114 ≤ st.capacity) (h2 : 18 + 4096 * decodedCount st ≤ st.capacity) :
    (md5 (checkInput st) ≠ storedMd5 st → ghostfs_mount md5 st = .error eio) ∧
    (md5 (checkInput st) = storedMd5 st →
      ∃ g, ghostfs_mount md5 st = .ok g ∧ g.cluster_count = decodedCount st ∧
        g.clusters = fun nr => storeCluster st nr) := by
  have hc := ghostfs_check_eq md5 st h1
  constructor
  · intro hne
    rw [if_neg hne] at hc
    simp [ghostfs_mount, hc]
  · intro heq
    rw [if_pos heq] at hc
    obtain ⟨v, hv⟩ := mount_count_free_ok st (decodedCount st) h2
      (decodedCount st + 1) 1 0 (by omega)
    refine ⟨{ cluster_count := decodedCount st
            , clusters := fun nr => storeCluster st nr
            , root_entry := ⟨List.replicate 56 0, 2 ^ 31, 0⟩
            , free_clusters := v }, ?_, rfl, rfl⟩
    simp [ghostfs_mount, hc, hv]

/-! ## State-update lemmas -/

theorem clusters_setCluster (g : Ghostfs) (nr : Nat) (c : Cluster) (q : Nat) :
    (setCluster g nr c).clusters q = if q = nr then c else g.clusters q :=
  Function.update_apply g.clusters nr c q

@[simp] theorem setCluster_cluster_count (g : Ghostfs) (nr : Nat) (c : Cluster) :
    (setCluster g nr c).cluster_count = g.cluster_count := rfl

@[simp] theorem setCluster_root_entry (g : Ghostfs) (nr : Nat) (c : Cluster) :
    (setCluster g nr c).root_entry = g.root_entry := rfl

@[simp] theorem setCluster_free_clusters (g : Ghostfs) (nr : Nat) (c : Cluster) :
    (setCluster g nr c).free_clusters = g.free_clusters := rfl

@[simp] theorem clusters_setCluster_same (g : Ghostfs) (nr : Nat) (c : Cluster) :
    (setCluster g nr c).clusters nr = c := by
  rw [clusters_setCluster, if_pos rfl]

theorem clusters_setCluster_ne (g : Ghostfs) (nr : Nat) (c : Cluster) (q : Nat) (h : q ≠ nr) :
    (setCluster g nr c).clusters q = g.clusters q := by
  rw [clusters_setCluster, if_neg h]

@[simp] theorem incFree_clusters (g : Ghostfs) : (incFree g).clusters = g.clusters := rfl

@[simp] theorem incFree_cluster_count (g : Ghostfs) :
    (incFree g).cluster_count = g.cluster_count := rfl

@[simp] theorem incFree_root_entry (g : Ghostfs) : (incFree g).root_entry = g.root_entry := rfl

@[simp] theorem incFree_free_clusters (g : Ghostfs) :
    (incFree g).free_clusters = (g.free_clusters + 1) % 65536 := rfl

@[simp] theorem decFree_clusters (g : Ghostfs) : (decFree g).clusters = g.clusters := by
  simp [decFree]

@[simp] theorem decFree_cluster_count (g : Ghostfs) :
    (decFree g).cluster_count = g.cluster_count := by simp [decFree]

@[simp] theorem decFree_root_entry (g : Ghostfs) : (decFree g).root_entry = g.root_entry := by
  simp [decFree]

@[simp] theorem decFree_free_clusters (g : Ghostfs) :
    (decFree g).free_clusters = (g.free_clusters + 65535) % 65536 := by simp [decFree]

/-! ## The allocator's rollback (the `undo:` path) -/

theorem alloc_undo_zero (g : Ghostfs) (ret pos : Nat) :
    alloc_undo g ret pos 0 = (g, .error ret) := rfl

theorem alloc_undo_succ (g : Ghostfs) (ret pos n : Nat) (h : ¬ g.cluster_count ≤ pos) :
    alloc_undo g ret pos (n + 1) =
      alloc_undo (incFree (setCluster g pos { g.clusters pos with used := 0, dirty := 1 }))
        ret (g.clusters pos).next n := by
  simp [alloc_undo, h]

/-- the rollback walk restores every claimed cluster's `used` bit to 0,
re-increments the counter once per claimed cluster, touches nothing
else, and returns the error it was given. -/
theorem alloc_undo_spec (g0 : Ghostfs) :
    ∀ (ps : List Nat) (gcur : Ghostfs) (ret : Nat),
      gcur.cluster_count = g0.cluster_count →
      (∀ p ∈ ps, p < g0.cluster_count) →
      (∀ k, k + 1 < ps.length → (gcur.clusters (ps.getD k 0)).next = ps.getD (k + 1) 0) →
      ps.Nodup →
      gcur.free_clusters < 65536 →
      (alloc_undo gcur ret (ps.headD 0) ps.length).2 = .error ret ∧
      (alloc_undo gcur ret (ps.headD 0) ps.length).1.cluster_count = gcur.cluster_count ∧
      (alloc_undo gcur ret (ps.headD 0) ps.length).1.root_entry = gcur.root_entry ∧
      (alloc_undo gcur ret (ps.headD 0) ps.length).1.free_clusters =
        (gcur.free_clusters + ps.length) % 65536 ∧
      (∀ q, q ∉ ps →
        (alloc_undo gcur ret (ps.headD 0) ps.length).1.clusters q = gcur.clusters q) ∧
      (∀ p ∈ ps, ((alloc_undo gcur ret (ps.headD 0) ps.length).1.clusters p).used = 0) := by
  intro ps
  induction ps with
  | nil =>
    intro gcur ret _ _ _ _ hlt
    refine ⟨rfl, rfl, rfl, ?_, fun q _ => rfl, fun p hp => absurd hp (List.not_mem_nil p)⟩
    simpa [alloc_undo_zero] using (Nat.mod_eq_of_lt hlt).symm
  | cons p rest ih =>
    intro gcur ret hcc hmem hlinks hnd hlt
    have hplt : p < gcur.cluster_count := by
      rw [hcc]; exact hmem p (List.mem_cons_self p rest)
    have hguard : ¬ gcur.cluster_count ≤ p := not_le.2 hplt
    have hstep := alloc_undo_succ gcur ret p rest.length hguard
    set g1 := incFree (setCluster gcur p { gcur.clusters p with used := 0, dirty := 1 })
      with hg1def
    have hg1cc : g1.cluster_count = gcur.cluster_count := by simp [hg1def]
    have hg1root : g1.root_entry = gcur.root_entry := by simp [hg1def]
    have hg1free : g1.free_clusters = (gcur.free_clusters + 1) % 65536 := by simp [hg1def]
    have hg1lt : g1.free_clusters < 65536 := by
      rw [hg1free]; exact Nat.mod_lt _ (by norm_num)
    have hpnotrest : p ∉ rest := (List.nodup_cons.1 hnd).1
    have hg1q : ∀ q, q ≠ p → g1.clusters q = gcur.clusters q := by
      intro q hq
      simp [hg1def, clusters_setCluster_ne gcur p _ q hq]
    have hg1p : g1.clusters p = { gcur.clusters p with used := 0, dirty := 1 } := by
      simp [hg1def]
    have hred : alloc_undo gcur ret ((p :: rest).headD 0) (p :: rest).length =
        alloc_undo g1 ret (gcur.clusters p).next rest.length := hstep
    rcases rest with _ | ⟨r, rest'⟩
    · rw [hred, List.length_nil, alloc_undo_zero]
      refine ⟨rfl, hg1cc, hg1root, ?_, ?_, ?_⟩
      · rw [hg1free]; rfl
      · intro q hq
        have hqp : q ≠ p := by simpa using hq
        exact hg1q q hqp
      · intro x hx
        have hxp : x = p := by simpa using hx
        subst hxp
        rw [hg1p]
    · have hnext : (gcur.clusters p).next = r := by
        have := hlinks 0 (by simp)
        simpa using this
      have hlinks' : ∀ k, k + 1 < (r :: rest').length →
          (g1.clusters ((r :: rest').getD k 0)).next = (r :: rest').getD (k + 1) 0 := by
        intro k hk
        have hklt : k < (r :: rest').length := by omega
        have hmemk : (r :: rest').getD k 0 ∈ (r :: rest') := by
          rw [List.getD_eq_getElem _ _ hklt]
          exact List.getElem_mem hklt
        have hne : (r :: rest').getD k 0 ≠ p := fun h => hpnotrest (h ▸ hmemk)
        rw [hg1q _ hne]
        have := hlinks (k + 1) (by simpa using hk)
        simpa using this
      have hmem' : ∀ q ∈ (r :: rest'), q < g0.cluster_count := fun q hq =>
        hmem q (List.mem_cons_of_mem p hq)
      have hg1cc0 : g1.cluster_count = g0.cluster_count := by rw [hg1cc, hcc]
      obtain ⟨e1, e2, e3, e4, e5, e6⟩ :=
        ih g1 ret hg1cc0 hmem' hlinks' (List.nodup_cons.1 hnd).2 hg1lt
      rw [hred, hnext]
      simp only [List.headD_cons] at e1 e2 e3 e4 e5 e6
      refine ⟨e1, by rw [e2, hg1cc], by rw [e3, hg1root], ?_, ?_, ?_⟩
      · rw [e4, hg1free, Nat.mod_add_mod]
        congr 1
        simp [List.length_cons]
        ring
      · intro q hq
        have hqp : q ≠ p := fun h => hq (h ▸ List.mem_cons_self p _)
        have hqrest : q ∉ (r :: rest') := fun h => hq (List.mem_cons_of_mem p h)
        rw [e5 q hqrest, hg1q q hqp]
      · intro x hx
        rcases List.mem_cons.1 hx with hx | hx
        · subst hx
          rw [e5 x hpnotrest, hg1p]
        · exact e6 x hx

/-! ## Counting free clusters along the scan -/

theorem countFreeUpTo_succ (g : Ghostfs) (pos : Nat) (h1 : 1 ≤ pos) :
    countFreeUpTo g (pos + 1) =
      countFreeUpTo g pos + if (g.clusters pos).used = 0 then 1 else 0 := by
  unfold countFreeUpTo
  have h2 : pos + 1 - 1 = (pos - 1) + 1 := by omega
  rw [h2, List.range'_1_concat]
  have h3 : 1 + (pos - 1) = pos := by omega
  rw [h3, List.filter_append, List.length_append]
  by_cases h : (g.clusters pos).used = 0 <;> simp [h]

theorem nodup_free_length_le (g : Ghostfs) (ps : List Nat) (hnd : ps.Nodup)
    (hmem : ∀ p ∈ ps, 1 ≤ p ∧ p < g.cluster_count ∧ (g.clusters p).used = 0) :
    ps.length ≤ count_free g := by
  classical
  have hsub : ps.toFinset ⊆ ((List.range' 1 (g.cluster_count - 1)).filter
      fun i => (g.clusters i).used = 0).toFinset := by
    intro x hx
    rw [List.mem_toFinset] at hx ⊢
    obtain ⟨ha, hb, hc⟩ := hmem x hx
    rw [List.mem_filter]
    refine ⟨?_, by simpa using hc⟩
    rw [List.mem_range'_1]
    omega
  calc ps.length = ps.toFinset.card := (List.toFinset_card_of_nodup hnd).symm
  _ ≤ ((List.range' 1 (g.cluster_count - 1)).filter
      fun i => (g.clusters i).used = 0).toFinset.card := Finset.card_le_card hsub
  _ ≤ ((List.range' 1 (g.cluster_count - 1)).filter
      fun i => (g.clusters i).used = 0).length := List.toFinset_card_le _
  _ = count_free g := rfl

/-! ## List index helpers -/

theorem nodup_getD_ne (l : List Nat) (h : l.Nodup) {i j : Nat}
    (hi : i < l.length) (hj : j < l.length) (hij : i ≠ j) : l.getD i 0 ≠ l.getD j 0 := by
  rw [List.getD_eq_getElem _ _ hi, List.getD_eq_getElem _ _ hj]
  intro he
  exact hij ((h.getElem_inj_iff).1 he)

theorem getD_mem_of_lt (l : List Nat) {k : Nat} (h : k < l.length) : l.getD k 0 ∈ l := by
  rw [List.getD_eq_getElem _ _ h]
  exact List.getElem_mem h

theorem getLast_eq_getD (l : List Nat) (h : l ≠ []) : l.getLast h = l.getD (l.length - 1) 0 := by
  have hlt : l.length - 1 < l.length := by
    have := List.length_pos.2 h
    omega
  rw [List.getD_eq_getElem _ _ hlt, List.getLast_eq_getElem]

theorem headD_eq_getD (l : List Nat) : l.headD 0 = l.getD 0 0 := by
  cases l <;> rfl

theorem headD_append_ne (l : List Nat) (x : Nat) (h : l ≠ []) :
    (l ++ [x]).headD 0 = l.headD 0 := by
  cases l with
  | nil => exact absurd rfl h
  | cons a t => rfl

theorem headD_append (l l2 : List Nat) (h : l ≠ []) : (l ++ l2).headD 0 = l.headD 0 := by
  cases l with
  | nil => exact absurd rfl h
  | cons a t => rfl

theorem headD_mem (l : List Nat) (h : l ≠ []) : l.headD 0 ∈ l := by
  cases l with
  | nil => exact absurd rfl h
  | cons a t => exact List.mem_cons_self a t

/-! ## The allocation scan -/

/-- the `setNext` of the success exit and of chain linking changes only
the `next` field of one cluster. -/
theorem setNext_clusters (g : Ghostfs) (nr v q : Nat) :
    (setNext g nr v).clusters q =
      if q = nr then { g.clusters nr with next := v } else g.clusters q := by
  rw [setNext, clusters_setCluster]

@[simp] theorem setNext_cluster_count (g : Ghostfs) (nr v : Nat) :
    (setNext g nr v).cluster_count = g.cluster_count := rfl

@[simp] theorem setNext_root_entry (g : Ghostfs) (nr v : Nat) :
    (setNext g nr v).root_entry = g.root_entry := rfl

@[simp] theorem setNext_free_clusters (g : Ghostfs) (nr v : Nat) :
    (setNext g nr v).free_clusters = g.free_clusters := rfl

/-- the full characterization of the allocation scan: from a state
satisfying the loop invariant it either exhausts the cluster range —
returning `-ENOSPC` with every claimed cluster rolled back — or claims
exactly `count` clusters, in a chain of fresh, previously free, distinct
clusters, leaving everything else untouched. -/
theorem alloc_loop_spec (g0 : Ghostfs) (zero : Bool) (count : Nat)
    (hcount : 1 ≤ count) (hfree0 : g0.free_clusters < 65536) :
    ∀ fuel gcur pos allocd first prev ps,
      AllocInv zero g0 gcur ps pos allocd first prev →
      1 ≤ pos → pos ≤ g0.cluster_count → allocd ≤ count →
      g0.cluster_count + 1 - pos ≤ fuel →
      (∃ gfin, alloc_loop zero count fuel gcur pos allocd first prev = (gfin, .error enospc) ∧
        count_free g0 < count ∧
        gfin.cluster_count = g0.cluster_count ∧
        (∀ q, (gfin.clusters q).used = (g0.clusters q).used) ∧
        gfin.free_clusters = g0.free_clusters) ∨
      (∃ gfin ps', alloc_loop zero count fuel gcur pos allocd first prev =
          (gfin, .ok (ps'.headD 0)) ∧
        ps' ≠ [] ∧ ps'.length = count ∧ ps'.Nodup ∧
        (∀ p ∈ ps', 1 ≤ p ∧ p < g0.cluster_count ∧ (g0.clusters p).used = 0) ∧
        (∀ q, q ∉ ps' → gfin.clusters q = g0.clusters q) ∧
        (∀ p ∈ ps', (gfin.clusters p).used = 1 ∧
          ∀ j, (gfin.clusters p).data j =
            if zero = true ∧ j < CLUSTER_DATA then 0 else (g0.clusters p).data j) ∧
        (∀ k, k + 1 < ps'.length → (gfin.clusters (ps'.getD k 0)).next = ps'.getD (k + 1) 0) ∧
        (∀ h : ps' ≠ [], (gfin.clusters (ps'.getLast h)).next = 0) ∧
        gfin.cluster_count = g0.cluster_count ∧ gfin.root_entry = g0.root_entry ∧
        gfin.free_clusters = (g0.free_clusters + 65535 * count) % 65536) := by
  intro fuel
  induction fuel with
  | zero =>
    intro gcur pos allocd first prev ps _ h1 h2 _ hf
    omega
  | succ n ih =>
    intro gcur pos allocd first prev ps hinv h1 h2 h3 hf
    obtain ⟨icc, ire, ifc, ialen, iunt, imemb, iused, idata, ilinks, ind, ifirst, iprev, icnt⟩ :=
      hinv
    have hmemne : ∀ p ∈ ps, p ≠ 0 := fun p hp => by
      have := (imemb p hp).1; omega
    by_cases hA : count ≤ allocd
    · -- the success exit: `prev->hdr.next = 0; return first`
      right
      have hlen : ps.length = count := by omega
      have hne : ps ≠ [] := by
        intro h
        rw [h] at hlen
        simp at hlen
        omega
      have hprevlast : prev = ps.getLast hne := iprev hne
      have hprevmem : prev ∈ ps := hprevlast ▸ List.getLast_mem hne
      have heq : alloc_loop zero count (n + 1) gcur pos allocd first prev =
          (setNext gcur prev 0, .ok first) := by
        simp only [alloc_loop, if_pos hA]
      refine ⟨setNext gcur prev 0, ps, by rw [heq, ifirst], hne, hlen, ind, ?_, ?_, ?_, ?_, ?_,
        by simp [icc], by simp [ire], by simp [ifc, hlen]⟩
      · intro p hp
        exact ⟨(imemb p hp).1, (imemb p hp).2.2.1, (imemb p hp).2.2.2⟩
      · intro q hq
        rw [setNext_clusters, if_neg (fun h => hq (by rw [h]; exact hprevmem)), iunt q hq]
      · intro p hp
        rw [setNext_clusters]
        by_cases hpp : p = prev
        · subst hpp
          simp only [if_pos rfl]
          exact ⟨iused p hp, fun j => idata p hp j⟩
        · rw [if_neg hpp]
          exact ⟨iused p hp, fun j => idata p hp j⟩
      · intro k hk
        have hklt : k < ps.length := by omega
        have hmk : ps.getD k 0 ∈ ps := getD_mem_of_lt ps hklt
        have hkne : ps.getD k 0 ≠ prev := by
          rw [hprevlast, getLast_eq_getD]
          exact nodup_getD_ne ps ind hklt (by omega) (by omega)
        rw [setNext_clusters, if_neg hkne]
        exact ilinks k hk
      · intro h
        have hlp : ps.getLast h = prev := hprevlast.symm
        rw [setNext_clusters, if_pos hlp]
    · by_cases hB : g0.cluster_count ≤ pos
      · -- the range is exhausted: roll back and fail with `-ENOSPC`
        left
        have hpos : pos = g0.cluster_count := le_antisymm h2 hB
        have hguard : gcur.cluster_count ≤ pos := by rw [icc]; exact hB
        have heq : alloc_loop zero count (n + 1) gcur pos allocd first prev =
            alloc_undo gcur enospc first allocd := by
          simp only [alloc_loop, if_neg hA, if_pos hguard]
        have hcurfree : gcur.free_clusters < 65536 := by
          rw [ifc]; exact Nat.mod_lt _ (by norm_num)
        have hmemlt : ∀ p ∈ ps, p < g0.cluster_count := fun p hp => (imemb p hp).2.2.1
        obtain ⟨e1, e2, e3, e4, e5, e6⟩ :=
          alloc_undo_spec g0 ps gcur enospc icc hmemlt ilinks ind hcurfree
        rw [heq, ifirst, ialen]
        refine ⟨(alloc_undo gcur enospc (ps.headD 0) ps.length).1, ?_, ?_, ?_, ?_, ?_⟩
        · rw [← e1]
        · have : count_free g0 = countFreeUpTo g0 g0.cluster_count := rfl
          rw [this, ← hpos, ← icnt]
          omega
        · rw [e2, icc]
        · intro q
          by_cases hq : q ∈ ps
          · rw [e6 q hq, (imemb q hq).2.2.2]
          · rw [e5 q hq, iunt q hq]
        · rw [e4, ifc, Nat.mod_add_mod]
          have harith : g0.free_clusters + 65535 * ps.length + ps.length =
              g0.free_clusters + 65536 * ps.length := by ring
          rw [harith, Nat.add_mul_mod_self_left, Nat.mod_eq_of_lt hfree0]
      · -- scan one more position
        have hposlt : pos < g0.cluster_count := lt_of_not_ge hB
        have hguard : ¬ gcur.cluster_count ≤ pos := by rw [icc]; exact not_le.2 hposlt
        have hposnotps : pos ∉ ps := fun h => by
          have := (imemb pos h).2.1; omega
        have hgcpos : gcur.clusters pos = g0.clusters pos := iunt pos hposnotps
        by_cases hused : (gcur.clusters pos).used = 0
        · -- claim this cluster and keep scanning
          have heq : alloc_loop zero count (n + 1) gcur pos allocd first prev =
              alloc_loop zero count n
                (if first = 0
                 then decFree (setCluster gcur pos
                   { data := if zero then
                       (fun j => if j < CLUSTER_DATA then 0 else (gcur.clusters pos).data j)
                     else (gcur.clusters pos).data
                   , next := (gcur.clusters pos).next, used := 1, dirty := 1 })
                 else setNext (decFree (setCluster gcur pos
                   { data := if zero then
                       (fun j => if j < CLUSTER_DATA then 0 else (gcur.clusters pos).data j)
                     else (gcur.clusters pos).data
                   , next := (gcur.clusters pos).next, used := 1, dirty := 1 })) prev pos)
                (pos + 1) (allocd + 1) (if first = 0 then pos else first) pos := by
            simp only [alloc_loop, if_neg hA, if_neg hguard, if_pos hused]
          set c' : Cluster :=
            { data := if zero then
                (fun j => if j < CLUSTER_DATA then 0 else (gcur.clusters pos).data j)
              else (gcur.clusters pos).data
            , next := (gcur.clusters pos).next, used := 1, dirty := 1 } with hc'def
          set g1 := decFree (setCluster gcur pos c') with hg1def
          have hfirst0 : first = 0 ↔ ps = [] := by
            constructor
            · intro h0
              by_contra hne
              have := headD_mem ps hne
              have : ps.headD 0 ≠ 0 := hmemne _ this
              rw [← ifirst] at this
              exact this h0
            · intro h0
              rw [ifirst, h0]
              rfl
          have hg1q : ∀ q, q ≠ pos → g1.clusters q = gcur.clusters q := fun q hq => by
            simp [hg1def, clusters_setCluster_ne gcur pos c' q hq]
          have hg1pos : g1.clusters pos = c' := by simp [hg1def]
          -- the state after the whole claim step, uniformly
          set g2 := if first = 0 then g1 else setNext g1 prev pos with hg2def
          have hg2cases :
              (ps = [] ∧ g2 = g1) ∨
              (∃ hne : ps ≠ [], prev = ps.getLast hne ∧ prev ∈ ps ∧ g2 = setNext g1 prev pos) := by
            by_cases h0 : first = 0
            · exact .inl ⟨hfirst0.1 h0, by rw [hg2def, if_pos h0]⟩
            · have hne : ps ≠ [] := fun h => h0 (hfirst0.2 h)
              exact .inr ⟨hne, iprev hne, (iprev hne) ▸ List.getLast_mem hne,
                by rw [hg2def, if_neg h0]⟩
          have hg2q : ∀ q, q ≠ pos → q ∉ ps → g2.clusters q = gcur.clusters q := by
            intro q hqpos hqps
            rcases hg2cases with ⟨_, hg⟩ | ⟨hne, hpl, hpm, hg⟩
            · rw [hg, hg1q q hqpos]
            · rw [hg, setNext_clusters, if_neg (fun h => hqps (by rw [h]; exact hpm)), hg1q q hqpos]
          have hg2pos : g2.clusters pos = c' := by
            rcases hg2cases with ⟨_, hg⟩ | ⟨hne, hpl, hpm, hg⟩
            · rw [hg, hg1pos]
            · have hppos : pos ≠ prev := fun h => hposnotps (by rw [h]; exact hpm)
              rw [hg, setNext_clusters, if_neg hppos, hg1pos]
          have hg2memps : ∀ p ∈ ps, p ≠ prev → g2.clusters p = gcur.clusters p := by
            intro p hp hpprev
            have hppos : p ≠ pos := fun h => hposnotps (h ▸ hp)
            rcases hg2cases with ⟨hnil, hg⟩ | ⟨hne, hpl, hpm, hg⟩
            · rw [hg, hg1q p hppos]
            · rw [hg, setNext_clusters, if_neg hpprev, hg1q p hppos]
          have hg2prev : ∀ hne : ps ≠ [], prev = ps.getLast hne →
              g2.clusters prev = { gcur.clusters prev with next := pos } ∨ g2 = g1 := by
            intro hne hpl
            rcases hg2cases with ⟨hnil, hg⟩ | ⟨hne', hpl', hpm, hg⟩
            · exact .inr hg
            · left
              have hprevpos : prev ≠ pos := fun h => hposnotps (h ▸ hpm)
              rw [hg, setNext_clusters, if_pos rfl, hg1q prev hprevpos]
          have hg2cc : g2.cluster_count = g0.cluster_count := by
            rcases hg2cases with ⟨_, hg⟩ | ⟨_, _, _, hg⟩ <;> simp [hg, hg1def, icc]
          have hg2re : g2.root_entry = g0.root_entry := by
            rcases hg2cases with ⟨_, hg⟩ | ⟨_, _, _, hg⟩ <;> simp [hg, hg1def, ire]
          have hg2fc : g2.free_clusters =
              (g0.free_clusters + 65535 * (ps.length + 1)) % 65536 := by
            have h1' : g1.free_clusters = (gcur.free_clusters + 65535) % 65536 := by
              simp [hg1def]
            have h2' : g2.free_clusters = g1.free_clusters := by
              rcases hg2cases with ⟨_, hg⟩ | ⟨_, _, _, hg⟩ <;> simp [hg]
            rw [h2', h1', ifc]
            omega
          have hfreeg0 : (g0.clusters pos).used = 0 := by rw [← hgcpos]; exact hused
          -- the new invariant for `ps ++ [pos]`
          have hinv' : AllocInv zero g0 g2 (ps ++ [pos]) (pos + 1) (allocd + 1)
              (if first = 0 then pos else first) pos := by
            refine ⟨hg2cc, hg2re, by simpa using hg2fc, by simp [ialen], ?_, ?_, ?_, ?_, ?_, ?_,
              ?_, ?_, ?_⟩
            · intro q hq
              rw [List.mem_append, not_or] at hq
              have hqpos : q ≠ pos := by
                intro h
                exact hq.2 (by simp [h])
              rw [hg2q q hqpos hq.1, iunt q hq.1]
            · intro p hp
              rw [List.mem_append] at hp
              rcases hp with hp | hp
              · obtain ⟨a, b, c, d⟩ := imemb p hp
                exact ⟨a, by omega, c, d⟩
              · have hppos : p = pos := by simpa using hp
                subst hppos
                exact ⟨h1, by omega, hposlt, hfreeg0⟩
            · intro p hp
              rw [List.mem_append] at hp
              rcases hp with hp | hp
              · by_cases hpprev : p = prev
                · subst hpprev
                  rcases hg2cases with ⟨hnil, hg⟩ | ⟨hne, hpl, hpm, hg⟩
                  · exact absurd (hnil ▸ hp) (List.not_mem_nil p)
                  · rw [hg, setNext_clusters, if_pos rfl]
                    have hppos : p ≠ pos := fun h => hposnotps (h ▸ hp)
                    rw [hg1q p hppos]
                    exact iused p hp
                · rw [hg2memps p hp hpprev]
                  exact iused p hp
              · have hppos : p = pos := by simpa using hp
                subst hppos
                rw [hg2pos]
            · intro p hp j
              rw [List.mem_append] at hp
              rcases hp with hp | hp
              · by_cases hpprev : p = prev
                · subst hpprev
                  rcases hg2cases with ⟨hnil, hg⟩ | ⟨hne, hpl, hpm, hg⟩
                  · exact absurd (hnil ▸ hp) (List.not_mem_nil p)
                  · rw [hg, setNext_clusters, if_pos rfl]
                    have hppos : p ≠ pos := fun h => hposnotps (h ▸ hp)
                    rw [hg1q p hppos]
                    exact idata p hp j
                · rw [hg2memps p hp hpprev]
                  exact idata p hp j
              · have hppos : p = pos := by simpa using hp
                subst hppos
                rw [hg2pos, hc'def]
                rcases hz : zero with _ | _
                · simp [hz, hgcpos]
                · by_cases hj : j < CLUSTER_DATA <;> simp [hz, hj, hgcpos]
            · intro k hk
              rw [List.length_append, List.length_singleton] at hk
              by_cases hklast : k + 1 < ps.length
              · have hklt : k < ps.length := by omega
                rw [List.getD_append _ _ _ _ hklt, List.getD_append _ _ _ _ hklast]
                have hmk : ps.getD k 0 ∈ ps := getD_mem_of_lt ps hklt
                have hkpos : ps.getD k 0 ≠ pos := fun h => hposnotps (h ▸ hmk)
                have hkprev : ps.getD k 0 ≠ prev ∨ g2.clusters (ps.getD k 0) =
                    gcur.clusters (ps.getD k 0) := by
                  rcases hg2cases with ⟨hnil, hg⟩ | ⟨hne, hpl, hpm, hg⟩
                  · right; rw [hg, hg1q _ hkpos]
                  · left
                    rw [hpl, getLast_eq_getD]
                    exact nodup_getD_ne ps ind hklt (by omega) (by omega)
                rcases hkprev with hkprev | hkeq
                · rw [hg2memps _ hmk hkprev]
                  exact ilinks k hklast
                · rw [hkeq]
                  exact ilinks k hklast
              · -- the link from the old last claimed cluster to `pos`
                have hkeq : k = ps.length - 1 ∧ 1 ≤ ps.length := by
                  by_cases hnil : ps = []
                  · subst hnil
                    simp at hk
                  · have : 1 ≤ ps.length := List.length_pos.2 hnil
                    omega
                obtain ⟨hkval, hlen1⟩ := hkeq
                have hne : ps ≠ [] := by
                  intro h
                  rw [h] at hlen1
                  simp at hlen1
                rcases hg2cases with ⟨hnil, _⟩ | ⟨hne', hpl, hpm, hg⟩
                · exact absurd hnil hne
                · have hklt : k < ps.length := by omega
                  rw [List.getD_append _ _ _ _ hklt]
                  have hgetlast : ps.getD k 0 = prev := by
                    rw [hpl, getLast_eq_getD, hkval]
                  rw [hgetlast]
                  have hrhs : (ps ++ [pos]).getD (k + 1) 0 = pos := by
                    rw [List.getD_append_right _ _ _ _ (by omega)]
                    have : k + 1 - ps.length = 0 := by omega
                    rw [this]
                    rfl
                  rw [hrhs, hg, setNext_clusters, if_pos rfl]
            · rw [List.nodup_append]
              exact ⟨ind, List.nodup_singleton pos,
                fun a ha hb => hposnotps ((by simpa using hb : a = pos) ▸ ha)⟩
            · by_cases h0 : first = 0
              · rw [if_pos h0, hfirst0.1 h0]
                rfl
              · rw [if_neg h0]
                have hne : ps ≠ [] := fun h => h0 (hfirst0.2 h)
                rw [headD_append_ne ps pos hne, ifirst]
            · intro h
              rw [List.getLast_append_singleton]
            · rw [countFreeUpTo_succ g0 pos h1, if_pos hfreeg0, ← icnt]
          have hrec := ih g2 (pos + 1) (allocd + 1) (if first = 0 then pos else first) pos
            (ps ++ [pos]) hinv' (by omega) (by omega) (by omega) (by omega)
          rw [heq]
          exact hrec
        · -- skip a used cluster
          have heq : alloc_loop zero count (n + 1) gcur pos allocd first prev =
              alloc_loop zero count n gcur (pos + 1) allocd first prev := by
            simp only [alloc_loop, if_neg hA, if_neg hguard, if_neg hused]
          have husedg0 : (g0.clusters pos).used ≠ 0 := by rw [← hgcpos]; exact hused
          have hinv' : AllocInv zero g0 gcur ps (pos + 1) allocd first prev := by
            refine ⟨icc, ire, ifc, ialen, iunt, ?_, iused, idata, ilinks, ind, ifirst, iprev, ?_⟩
            · intro p hp
              obtain ⟨a, b, c, d⟩ := imemb p hp
              exact ⟨a, by omega, c, d⟩
            · rw [countFreeUpTo_succ g0 pos h1, if_neg husedg0, ← icnt]
              omega
          have hrec := ih gcur (pos + 1) allocd first prev ps hinv'
            (by omega) (by omega) h3 (by omega)
          rw [heq]
          exact hrec

/-- the initial allocation-scan invariant at `pos = 1` with nothing
claimed. -/
theorem allocInv_init (zero : Bool) (g : Ghostfs) (h2 : g.free_clusters < 65536) :
    AllocInv zero g g [] 1 0 0 0 := by
  refine ⟨rfl, rfl, by simp [Nat.mod_eq_of_lt h2], rfl, fun q _ => rfl, ?_, ?_, ?_, ?_,
    List.nodup_nil, rfl, ?_, rfl⟩
  · intro p hp
    exact absurd hp (List.not_mem_nil p)
  · intro p hp
    exact absurd hp (List.not_mem_nil p)
  · intro p hp
    exact absurd hp (List.not_mem_nil p)
  · intro k hk
    simp at hk
  · intro h
    exact absurd rfl h

/-- C9: when fewer than `count` clusters are free, `alloc_clusters`
fails with `-ENOSPC` and rolls back every cluster claimed during the
scan: afterwards every cluster's `used` bit and the `free_clusters`
counter are exactly as before the call. -/
theorem C9_alloc_nospace_rollback (g : Ghostfs) (count : Nat) (zero : Bool)
    (h1 : count_free g < count) (h2 : g.free_clusters < 65536) :
    (alloc_clusters g count zero).2 = .error enospc ∧
    (∀ nr, ((alloc_clusters g count zero).1.clusters nr).used = (g.clusters nr).used) ∧
    (alloc_clusters g count zero).1.free_clusters = g.free_clusters := by
  have hcount : 1 ≤ count := by omega
  by_cases hcc : g.cluster_count = 0
  · have : alloc_clusters g count zero = (g, .error enospc) := by
      unfold alloc_clusters
      rw [hcc]
      simp only [alloc_loop, if_neg (by omega : ¬ count ≤ 0), if_pos (by omega : g.cluster_count ≤ 1)]
      rfl
    rw [this]
    exact ⟨rfl, fun nr => rfl, rfl⟩
  · have hcc1 : 1 ≤ g.cluster_count := by omega
    have hspec := alloc_loop_spec g zero count hcount h2 (g.cluster_count + 1) g 1 0 0 0 []
      (allocInv_init zero g h2) (by omega) hcc1 (by omega) (by omega)
    rcases hspec with ⟨gfin, heq, _, _, hused, hfree⟩ | ⟨gfin, ps', _, _, hlen, hnd, hmem, _⟩
    · unfold alloc_clusters
      rw [heq]
      exact ⟨rfl, hused, hfree⟩
    · exfalso
      have := nodup_free_length_le g ps' hnd hmem
      omega

/-- C9 witness: the theorem applied to the 2-cluster filesystem with one
free cluster, asked for two clusters. -/
theorem C9_witness :
    count_free exGEmpty < 2 ∧ exGEmpty.free_clusters < 65536 ∧
    ((alloc_clusters exGEmpty 2 true).2 = .error enospc ∧
      (∀ nr, ((alloc_clusters exGEmpty 2 true).1.clusters nr).used =
        (exGEmpty.clusters nr).used) ∧
      (alloc_clusters exGEmpty 2 true).1.free_clusters = exGEmpty.free_clusters) :=
  ⟨by decide, by decide, C9_alloc_nospace_rollback exGEmpty 2 true (by decide) (by decide)⟩

/-- the success case of `alloc_clusters`: it claims exactly `count`
previously free, pairwise distinct clusters, links them into a
zero-terminated chain, zeroes their payloads when asked to, and touches
nothing else. -/
theorem alloc_clusters_ok (g : Ghostfs) (count : Nat) (zero : Bool) (gfin : Ghostfs)
    (first : Nat) (hcount : 1 ≤ count) (hfree : g.free_clusters < 65536)
    (hres : alloc_clusters g count zero = (gfin, .ok first)) :
    ∃ ps, first = ps.headD 0 ∧ ps ≠ [] ∧ ps.length = count ∧ ps.Nodup ∧
      (∀ p ∈ ps, 1 ≤ p ∧ p < g.cluster_count ∧ (g.clusters p).used = 0) ∧
      (∀ q, q ∉ ps → gfin.clusters q = g.clusters q) ∧
      (∀ p ∈ ps, (gfin.clusters p).used = 1 ∧
        ∀ j, (gfin.clusters p).data j =
          if zero = true ∧ j < CLUSTER_DATA then 0 else (g.clusters p).data j) ∧
      (∀ k, k + 1 < ps.length → (gfin.clusters (ps.getD k 0)).next = ps.getD (k + 1) 0) ∧
      (∀ h : ps ≠ [], (gfin.clusters (ps.getLast h)).next = 0) ∧
      gfin.cluster_count = g.cluster_count ∧ gfin.root_entry = g.root_entry ∧
      gfin.free_clusters = (g.free_clusters + 65535 * count) % 65536 := by
  by_cases hcc : g.cluster_count = 0
  · exfalso
    have : alloc_clusters g count zero = (g, .error enospc) := by
      unfold alloc_clusters
      rw [hcc]
      simp only [alloc_loop, if_neg (by omega : ¬ count ≤ 0),
        if_pos (by omega : g.cluster_count ≤ 1)]
      rfl
    rw [this] at hres
    exact Except.noConfusion (congrArg Prod.snd hres)
  · have hcc1 : 1 ≤ g.cluster_count := by omega
    have hspec := alloc_loop_spec g zero count hcount hfree (g.cluster_count + 1) g 1 0 0 0 []
      (allocInv_init zero g hfree) (by omega) hcc1 (by omega) (by omega)
    rcases hspec with ⟨gfin', heq, _⟩ | ⟨gfin', ps', heq, hne, hlen, hnd, hmem, hunt, hcl,
      hlinks, hlast, hgcc, hgre, hgfc⟩
    · exfalso
      unfold alloc_clusters at hres
      rw [heq] at hres
      exact Except.noConfusion (congrArg Prod.snd hres)
    · unfold alloc_clusters at hres
      rw [heq] at hres
      have hg : gfin' = gfin := congrArg Prod.fst hres
      have hf : first = ps'.headD 0 := by
        have h' := congrArg Prod.snd hres
        simp only [Prod.snd] at h'
        exact (Except.ok.inj h').symm
      subst hg
      exact ⟨ps', hf, hne, hlen, hnd, hmem, hunt, hcl, hlinks, hlast, hgcc, hgre, hgfc⟩

/-! ## Arithmetic of `size_to_clusters` -/

theorem stc_eq_zero_iff (s : Nat) : size_to_clusters s = 0 ↔ s = 0 := by
  unfold size_to_clusters CLUSTER_DATA
  by_cases h : s % 4092 = 0 <;> simp [h] <;> omega

theorem stc_pos (s : Nat) (h : 0 < s) : 1 ≤ size_to_clusters s := by
  have := (stc_eq_zero_iff s).2
  by_contra hc
  push_neg at hc
  have : size_to_clusters s = 0 := by omega
  rw [stc_eq_zero_iff] at this
  omega

theorem stc_le (s : Nat) : s ≤ size_to_clusters s * CLUSTER_DATA := by
  unfold size_to_clusters CLUSTER_DATA
  by_cases h : s % 4092 = 0 <;> simp [h] <;> omega

theorem stc_lower (s : Nat) (h : 0 < s) : (size_to_clusters s - 1) * CLUSTER_DATA < s := by
  unfold size_to_clusters CLUSTER_DATA
  by_cases h2 : s % 4092 = 0 <;> simp [h2] <;> omega

theorem stc_div_lt (i s : Nat) (h : i < s) : i / CLUSTER_DATA < size_to_clusters s := by
  unfold size_to_clusters CLUSTER_DATA
  by_cases h2 : s % 4092 = 0 <;> simp [h2] <;> omega

theorem stc_mono {s t : Nat} (h : s ≤ t) : size_to_clusters s ≤ size_to_clusters t := by
  unfold size_to_clusters CLUSTER_DATA
  by_cases h2 : s % 4092 = 0 <;> by_cases h3 : t % 4092 = 0 <;> simp [h2, h3] <;> omega

/-! ## Directory-entry byte codec lemmas -/

theorem u32_decode (v : Nat) (h : v < 2 ^ 32) :
    v % 256 + 256 * (v / 256 % 256) + 65536 * (v / 65536 % 256) +
      16777216 * (v / 16777216 % 256) = v := by omega

theorem u16_decode (v : Nat) (h : v < 65536) : v % 256 + 256 * (v / 256 % 256) = v := by omega

theorem getEntry_putSizeBytes_size (c : Cluster) (i v : Nat) :
    (getEntry (putSizeBytes c i v) i).size =
      v % 256 + 256 * (v / 256 % 256) + 65536 * (v / 65536 % 256) +
        16777216 * (v / 16777216 % 256) := by
  unfold getEntry putSizeBytes
  simp only []
  split_ifs <;> omega

theorem getEntry_putSizeBytes_filename (c : Cluster) (i v : Nat) :
    (getEntry (putSizeBytes c i v) i).filename = (getEntry c i).filename := by
  unfold getEntry putSizeBytes FILENAME_SIZE
  simp only []
  refine List.map_congr_left ?_
  intro j hj
  rw [List.mem_range] at hj
  rw [if_neg (by omega), if_neg (by omega), if_neg (by omega), if_neg (by omega)]

theorem getEntry_putSizeBytes_cluster (c : Cluster) (i v : Nat) :
    (getEntry (putSizeBytes c i v) i).cluster = (getEntry c i).cluster := by
  unfold getEntry putSizeBytes
  simp only []
  split_ifs <;> omega

theorem getEntry_putClusterBytes_cluster (c : Cluster) (i v : Nat) :
    (getEntry (putClusterBytes c i v) i).cluster = v % 256 + 256 * (v / 256 % 256) := by
  unfold getEntry putClusterBytes
  simp only []
  split_ifs <;> omega

theorem getEntry_putClusterBytes_size (c : Cluster) (i v : Nat) :
    (getEntry (putClusterBytes c i v) i).size = (getEntry c i).size := by
  unfold getEntry putClusterBytes
  simp only []
  split_ifs <;> omega

theorem getEntry_putClusterBytes_filename (c : Cluster) (i v : Nat) :
    (getEntry (putClusterBytes c i v) i).filename = (getEntry c i).filename := by
  unfold getEntry putClusterBytes FILENAME_SIZE
  simp only []
  refine List.map_congr_left ?_
  intro j hj
  rw [List.mem_range] at hj
  rw [if_neg (by omega), if_neg (by omega)]

theorem getEntry_mark (c : Cluster) (i : Nat) : getEntry (mark_cluster c) i = getEntry c i := rfl

theorem entryAtIter_slot (g : Ghostfs) (it : DirIter) (h : it.isRoot = false) :
    entryAtIter g it = getEntry (g.clusters it.cluster_nr) it.entry_nr := by
  simp [entryAtIter, h]

theorem setEntrySizeAtIter_slot (g : Ghostfs) (it : DirIter) (ns : Nat) (d : Bool)
    (h : it.isRoot = false) :
    setEntrySizeAtIter g it ns d =
      setCluster g it.cluster_nr
        (dir_entry_set_size (g.clusters it.cluster_nr) it.entry_nr ns d) := by
  simp [setEntrySizeAtIter, h]

theorem setEntryClusterAtIter_slot (g : Ghostfs) (it : DirIter) (v : Nat)
    (h : it.isRoot = false) :
    setEntryClusterAtIter g it v =
      setCluster g it.cluster_nr
        (putClusterBytes (g.clusters it.cluster_nr) it.entry_nr v) := by
  simp [setEntryClusterAtIter, h]

@[simp] theorem markNr_cluster_count (g : Ghostfs) (nr : Nat) :
    (markNr g nr).cluster_count = g.cluster_count := rfl

@[simp] theorem markNr_root_entry (g : Ghostfs) (nr : Nat) :
    (markNr g nr).root_entry = g.root_entry := rfl

@[simp] theorem markNr_free_clusters (g : Ghostfs) (nr : Nat) :
    (markNr g nr).free_clusters = g.free_clusters := rfl

theorem markNr_clusters (g : Ghostfs) (nr q : Nat) :
    (markNr g nr).clusters q =
      if q = nr then mark_cluster (g.clusters nr) else g.clusters q := by
  rw [markNr, clusters_setCluster]

theorem mark_cluster_data (c : Cluster) : (mark_cluster c).data = c.data := rfl

theorem mark_cluster_next (c : Cluster) : (mark_cluster c).next = c.next := rfl

theorem mark_cluster_used (c : Cluster) : (mark_cluster c).used = c.used := rfl

/-! ## Walking a well-formed chain -/

theorem cluster_at_nr_zero_nr (g : Ghostfs) : ∀ k, cluster_at_nr g 0 k = .error eio := by
  intro k
  cases k <;> simp [cluster_at_nr]

theorem cluster_at_nr_base (g : Ghostfs) (nr : Nat) (h0 : nr ≠ 0)
    (hlt : nr < g.cluster_count) : cluster_at_nr g nr 0 = .ok nr := by
  simp only [cluster_at_nr]
  rw [if_neg h0, if_neg (not_le.2 hlt)]

theorem cluster_at_nr_succ (g : Ghostfs) (nr k : Nat) (h0 : nr ≠ 0)
    (hlt : nr < g.cluster_count) :
    cluster_at_nr g nr (k + 1) = cluster_at_nr g ((g.clusters nr).next) k := by
  conv_lhs => rw [cluster_at_nr]
  rw [if_neg h0, if_neg (not_le.2 hlt)]

/-- `cluster_at` returns the `k`-th cluster number of a correctly linked
chain. -/
theorem cluster_at_nr_chain (g : Ghostfs) :
    ∀ (chain : List Nat) (k : Nat),
      (∀ k', k' + 1 < chain.length →
        (g.clusters (chain.getD k' 0)).next = chain.getD (k' + 1) 0) →
      (∀ p ∈ chain, 1 ≤ p ∧ p < g.cluster_count) →
      k < chain.length →
      cluster_at_nr g (chain.headD 0) k = .ok (chain.getD k 0) := by
  intro chain
  induction chain with
  | nil =>
    intro k _ _ hk
    simp at hk
  | cons p rest ih =>
    intro k hlinks hmem hk
    have hp := hmem p (List.mem_cons_self p rest)
    cases k with
    | zero =>
      show cluster_at_nr g p 0 = .ok p
      exact cluster_at_nr_base g p (by omega) hp.2
    | succ k' =>
      have hrest_ne : rest ≠ [] := by
        intro h
        rw [h] at hk
        simp at hk
      have hstep : cluster_at_nr g p (k' + 1) = cluster_at_nr g ((g.clusters p).next) k' :=
        cluster_at_nr_succ g p k' (by omega) hp.2
      have hnext : (g.clusters p).next = rest.headD 0 := by
        have hl := hlinks 0 (by simp [List.length_pos.2 hrest_ne])
        rw [List.getD_cons_zero, List.getD_cons_succ] at hl
        rw [headD_eq_getD]
        exact hl
      have hlinks' : ∀ k', k' + 1 < rest.length →
          (g.clusters (rest.getD k' 0)).next = rest.getD (k' + 1) 0 := by
        intro k'' hk''
        have := hlinks (k'' + 1) (by simpa using hk'')
        simpa using this
      have hmem' : ∀ q ∈ rest, 1 ≤ q ∧ q < g.cluster_count := fun q hq =>
        hmem q (List.mem_cons_of_mem p hq)
      show cluster_at_nr g p (k' + 1) = .ok ((p :: rest).getD (k' + 1) 0)
      rw [hstep, hnext, List.getD_cons_succ]
      exact ih k' hlinks' hmem' (by simpa using hk)

/-- `cluster_at` fails with `-EIO` past the end of a zero-terminated
chain. -/
theorem cluster_at_nr_beyond (g : Ghostfs) :
    ∀ (chain : List Nat) (k : Nat),
      (∀ k', k' + 1 < chain.length →
        (g.clusters (chain.getD k' 0)).next = chain.getD (k' + 1) 0) →
      (∀ h : chain ≠ [], (g.clusters (chain.getLast h)).next = 0) →
      (∀ p ∈ chain, 1 ≤ p ∧ p < g.cluster_count) →
      chain.length ≤ k →
      cluster_at_nr g (chain.headD 0) k = .error eio := by
  intro chain
  induction chain with
  | nil =>
    intro k _ _ _ _
    exact cluster_at_nr_zero_nr g k
  | cons p rest ih =>
    intro k hlinks hlast hmem hk
    have hp := hmem p (List.mem_cons_self p rest)
    cases k with
    | zero => simp at hk
    | succ k' =>
      have hstep : cluster_at_nr g p (k' + 1) = cluster_at_nr g ((g.clusters p).next) k' :=
        cluster_at_nr_succ g p k' (by omega) hp.2
      show cluster_at_nr g p (k' + 1) = .error eio
      rw [hstep]
      rcases rest with _ | ⟨r, rest'⟩
      · have : (g.clusters p).next = 0 := by
          have := hlast (by simp)
          simpa [List.getLast_singleton] using this
        rw [this]
        exact cluster_at_nr_zero_nr g k'
      · have hrne : (r :: rest') ≠ [] := by simp
        have hnext : (g.clusters p).next = (r :: rest').headD 0 := by
          have hl := hlinks 0 (by simp)
          rw [List.getD_cons_zero, List.getD_cons_succ] at hl
          rw [headD_eq_getD]
          exact hl
        have hlinks' : ∀ k'', k'' + 1 < (r :: rest').length →
            (g.clusters ((r :: rest').getD k'' 0)).next = (r :: rest').getD (k'' + 1) 0 := by
          intro k'' hk''
          have := hlinks (k'' + 1) (by simpa using hk'')
          simpa using this
        have hlast' : ∀ h : (r :: rest') ≠ [],
            (g.clusters ((r :: rest').getLast h)).next = 0 := by
          intro h
          have := hlast (by simp)
          rwa [List.getLast_cons h] at this
        have hmem' : ∀ q ∈ (r :: rest'), 1 ≤ q ∧ q < g.cluster_count := fun q hq =>
          hmem q (List.mem_cons_of_mem p hq)
        rw [hnext]
        exact ih k' hlinks' hlast' hmem' (by simpa using hk)

theorem getD_drop (l : List Nat) (n i : Nat) : (l.drop n).getD i 0 = l.getD (n + i) 0 := by
  simp [List.getD_eq_getElem?_getD, List.getElem?_drop]

/-! ## The write loop -/

/-- correctness of the copy loop of `ghostfs_write` along a well-formed
chain: starting at chain index `k0`, in-cluster offset `off`, it writes
all of `buf` across the chain, returns the accumulated byte count, and
changes exactly the addressed payload bytes (plus dirty marks). -/
theorem write_loop_spec :
    ∀ (fuel : Nat) (g : Ghostfs) (chain : List Nat) (buf : List Nat) (k0 off w0 : Nat),
      (∀ k, k + 1 < chain.length →
        (g.clusters (chain.getD k 0)).next = chain.getD (k + 1) 0) →
      (∀ p ∈ chain, 1 ≤ p ∧ p < g.cluster_count) →
      chain.Nodup →
      off < CLUSTER_DATA →
      k0 < chain.length →
      k0 * CLUSTER_DATA + off + buf.length ≤ chain.length * CLUSTER_DATA →
      buf.length + 1 ≤ fuel →
      ∃ g', write_loop fuel g (chain.getD k0 0) buf buf.length off w0 =
          (g', .ok (w0 + buf.length)) ∧
        g'.cluster_count = g.cluster_count ∧ g'.root_entry = g.root_entry ∧
        g'.free_clusters = g.free_clusters ∧
        (∀ q, q ∉ chain → g'.clusters q = g.clusters q) ∧
        (∀ q, (g'.clusters q).next = (g.clusters q).next ∧
          (g'.clusters q).used = (g.clusters q).used) ∧
        (∀ m j, m < chain.length → j < CLUSTER_DATA →
          (g'.clusters (chain.getD m 0)).data j =
            if k0 * CLUSTER_DATA + off ≤ m * CLUSTER_DATA + j ∧
               m * CLUSTER_DATA + j < k0 * CLUSTER_DATA + off + buf.length
            then buf.getD (m * CLUSTER_DATA + j - (k0 * CLUSTER_DATA + off)) 0
            else (g.clusters (chain.getD m 0)).data j) := by
  intro fuel
  induction fuel with
  | zero =>
    intro g chain buf k0 off w0 _ _ _ _ _ _ hf
    omega
  | succ n ih =>
    intro g chain buf k0 off w0 hlinks hmem hnd hoff hk0 hcov hf
    simp only [CLUSTER_DATA] at hoff hcov
    have hw : (if CLUSTER_DATA < off + min buf.length CLUSTER_DATA
        then min buf.length CLUSTER_DATA - (off + min buf.length CLUSTER_DATA - CLUSTER_DATA)
        else min buf.length CLUSTER_DATA) = min buf.length (4092 - off) := by
      simp only [CLUSTER_DATA]
      split_ifs <;> omega
    have heq0 : write_loop (n + 1) g (chain.getD k0 0) buf buf.length off w0 =
        (if buf.length - min buf.length (4092 - off) = 0 then
          (setCluster g (chain.getD k0 0)
            { g.clusters (chain.getD k0 0) with
              data := (fun j => if off ≤ j ∧ j < off + min buf.length (4092 - off)
                then buf.getD (j - off) 0 else (g.clusters (chain.getD k0 0)).data j)
            , dirty := 1 }, .ok (w0 + min buf.length (4092 - off)))
        else
          match cluster_next_nr (setCluster g (chain.getD k0 0)
            { g.clusters (chain.getD k0 0) with
              data := (fun j => if off ≤ j ∧ j < off + min buf.length (4092 - off)
                then buf.getD (j - off) 0 else (g.clusters (chain.getD k0 0)).data j)
            , dirty := 1 }) (chain.getD k0 0) with
          | .error r => (setCluster g (chain.getD k0 0)
              { g.clusters (chain.getD k0 0) with
                data := (fun j => if off ≤ j ∧ j < off + min buf.length (4092 - off)
                  then buf.getD (j - off) 0 else (g.clusters (chain.getD k0 0)).data j)
              , dirty := 1 }, .error r)
          | .ok nxt => write_loop n (setCluster g (chain.getD k0 0)
              { g.clusters (chain.getD k0 0) with
                data := (fun j => if off ≤ j ∧ j < off + min buf.length (4092 - off)
                  then buf.getD (j - off) 0 else (g.clusters (chain.getD k0 0)).data j)
              , dirty := 1 }) nxt (buf.drop (min buf.length (4092 - off)))
              (buf.length - min buf.length (4092 - off)) 0
              (w0 + min buf.length (4092 - off))) := by
      conv_lhs => rw [write_loop]
      rw [hw]
    set W := min buf.length (4092 - off) with hWdef
    set cnr := chain.getD k0 0 with hcnr
    set c1 : Cluster :=
      { g.clusters cnr with
        data := (fun j => if off ≤ j ∧ j < off + W
          then buf.getD (j - off) 0 else (g.clusters cnr).data j)
      , dirty := 1 } with hc1
    set g1 := setCluster g cnr c1 with hg1
    have hcnrmem : cnr ∈ chain := getD_mem_of_lt chain hk0
    have hg1q : ∀ q, q ≠ cnr → g1.clusters q = g.clusters q := fun q hq => by
      rw [hg1, clusters_setCluster_ne g cnr c1 q hq]
    have hg1cnr : g1.clusters cnr = c1 := by
      rw [hg1, clusters_setCluster_same]
    have hg1nxt : ∀ q, (g1.clusters q).next = (g.clusters q).next := by
      intro q
      by_cases hq : q = cnr
      · subst hq
        rw [hg1cnr, hc1]
      · rw [hg1q q hq]
    have hg1used : ∀ q, (g1.clusters q).used = (g.clusters q).used := by
      intro q
      by_cases hq : q = cnr
      · subst hq
        rw [hg1cnr, hc1]
      · rw [hg1q q hq]
    by_cases hend : buf.length - W = 0
    · -- the final chunk: `size` reaches 0 after this copy
      have hWlen : W = buf.length := by
        have : W ≤ buf.length := Nat.min_le_left _ _
        omega
      have hfit : off + buf.length ≤ 4092 := by
        have : W ≤ 4092 - off := Nat.min_le_right _ _
        omega
      refine ⟨g1, ?_, by simp [hg1], by simp [hg1], by simp [hg1], ?_, ?_, ?_⟩
      · rw [heq0, if_pos hend, hWlen]
      · intro q hq
        exact hg1q q (fun h => hq (h ▸ hcnrmem))
      · intro q
        exact ⟨hg1nxt q, hg1used q⟩
      · intro m j hm hj
        simp only [CLUSTER_DATA] at hj ⊢
        by_cases hmk : m = k0
        · subst hmk
          rw [← hcnr, hg1cnr, hc1]
          simp only []
          by_cases hwin : off ≤ j ∧ j < off + W
          · rw [if_pos hwin, if_pos (by omega)]
            congr 1
            omega
          · rw [if_neg hwin, if_neg (by omega)]
        · have hne : chain.getD m 0 ≠ cnr := by
            rw [hcnr]
            exact nodup_getD_ne chain hnd hm hk0 hmk
          rw [hg1q _ hne, if_neg (by omega)]
    · -- a full tail-of-cluster chunk, then recurse on the next cluster
      have hWeq : W = 4092 - off := by
        have h1 : W ≤ buf.length := Nat.min_le_left _ _
        have h2 : W ≤ 4092 - off := Nat.min_le_right _ _
        omega
      have hW1 : 1 ≤ W := by omega
      have hk1 : k0 + 1 < chain.length := by
        by_contra hcon
        push_neg at hcon
        have : chain.length * 4092 ≤ (k0 + 1) * 4092 := by
          exact Nat.mul_le_mul_right _ hcon
        omega
      have hnxtval : (g1.clusters cnr).next = chain.getD (k0 + 1) 0 := by
        rw [hg1nxt, hcnr]
        exact hlinks k0 hk1
      have hnxtmem : chain.getD (k0 + 1) 0 ∈ chain := getD_mem_of_lt chain hk1
      have hnxtbounds := hmem _ hnxtmem
      have hnext : cluster_next_nr g1 cnr = .ok (chain.getD (k0 + 1) 0) := by
        unfold cluster_next_nr
        rw [hnxtval, if_neg (by omega)]
        have : g1.cluster_count = g.cluster_count := by simp [hg1]
        rw [this, if_neg (not_le.2 hnxtbounds.2)]
      have hlinks1 : ∀ k, k + 1 < chain.length →
          (g1.clusters (chain.getD k 0)).next = chain.getD (k + 1) 0 := by
        intro k hk
        rw [hg1nxt]
        exact hlinks k hk
      have hmem1 : ∀ p ∈ chain, 1 ≤ p ∧ p < g1.cluster_count := by
        intro p hp
        have : g1.cluster_count = g.cluster_count := by simp [hg1]
        rw [this]
        exact hmem p hp
      have hdroplen : (buf.drop W).length = buf.length - W := List.length_drop W buf
      have hcov1 : (k0 + 1) * CLUSTER_DATA + 0 + (buf.drop W).length ≤
          chain.length * CLUSTER_DATA := by
        simp only [CLUSTER_DATA]
        rw [hdroplen]
        omega
      obtain ⟨g', e1, e2, e3, e4, e5, e6, e7⟩ :=
        ih g1 chain (buf.drop W) (k0 + 1) 0 (w0 + W) hlinks1 hmem1 hnd
          (by simp [CLUSTER_DATA]) hk1 hcov1 (by rw [hdroplen]; omega)
      rw [hdroplen] at e1
      have hsum : w0 + W + (buf.length - W) = w0 + buf.length := by omega
      rw [hsum] at e1
      refine ⟨g', ?_, by rw [e2]; simp [hg1], by rw [e3]; simp [hg1],
        by rw [e4]; simp [hg1], ?_, ?_, ?_⟩
      · rw [heq0, if_neg hend, hnext]
        exact e1
      · intro q hq
        rw [e5 q hq, hg1q q (fun h => hq (h ▸ hcnrmem))]
      · intro q
        obtain ⟨en, eu⟩ := e6 q
        exact ⟨by rw [en, hg1nxt], by rw [eu, hg1used]⟩
      · intro m j hm hj
        have hd := e7 m j hm hj
        simp only [CLUSTER_DATA] at hd hj ⊢
        rw [hdroplen] at hd
        rw [hd]
        by_cases hA : (k0 + 1) * 4092 + 0 ≤ m * 4092 + j ∧
            m * 4092 + j < (k0 + 1) * 4092 + 0 + (buf.length - W)
        · rw [if_pos hA, if_pos (by omega)]
          rw [getD_drop]
          congr 1
          omega
        · rw [if_neg hA]
          by_cases hmk : m = k0
          · subst hmk
            rw [← hcnr, hg1cnr, hc1]
            simp only []
            by_cases hwin : off ≤ j ∧ j < off + W
            · rw [if_pos hwin, if_pos (by omega)]
              congr 1
              omega
            · rw [if_neg hwin, if_neg (by omega)]
          · have hne : chain.getD m 0 ≠ cnr := by
              rw [hcnr]
              exact nodup_getD_ne chain hnd hm hk0 hmk
            rw [hg1q _ hne, if_neg (by omega)]

/-! ## The read loop -/

/-- correctness of the copy loop of `ghostfs_read` along a well-formed
chain: it returns exactly the addressed payload bytes, appended to the
accumulator. -/
theorem read_loop_spec :
    ∀ (fuel : Nat) (g : Ghostfs) (chain : List Nat) (size k0 off : Nat) (acc : List Nat),
      (∀ k, k + 1 < chain.length →
        (g.clusters (chain.getD k 0)).next = chain.getD (k + 1) 0) →
      (∀ p ∈ chain, 1 ≤ p ∧ p < g.cluster_count) →
      off < CLUSTER_DATA →
      k0 < chain.length →
      k0 * CLUSTER_DATA + off + size ≤ chain.length * CLUSTER_DATA →
      size + 1 ≤ fuel →
      read_loop fuel g (chain.getD k0 0) size off acc =
        .ok (acc ++ (List.range size).map
          (fun t => chainByte g chain (k0 * CLUSTER_DATA + off + t))) := by
  intro fuel
  induction fuel with
  | zero =>
    intro g chain size k0 off acc _ _ _ _ _ hf
    omega
  | succ n ih =>
    intro g chain size k0 off acc hlinks hmem hoff hk0 hcov hf
    simp only [CLUSTER_DATA] at hoff hcov ⊢
    have hw : (if CLUSTER_DATA < off + min size CLUSTER_DATA
        then min size CLUSTER_DATA - (off + min size CLUSTER_DATA - CLUSTER_DATA)
        else min size CLUSTER_DATA) = min size (4092 - off) := by
      simp only [CLUSTER_DATA]
      split_ifs <;> omega
    have heq0 : read_loop (n + 1) g (chain.getD k0 0) size off acc =
        (if size - min size (4092 - off) = 0 then
          .ok (acc ++ (List.range (min size (4092 - off))).map
            (fun k => (g.clusters (chain.getD k0 0)).data (off + k)))
        else
          match cluster_next_nr g (chain.getD k0 0) with
          | .error e => .error e
          | .ok nxt => read_loop n g nxt (size - min size (4092 - off)) 0
              (acc ++ (List.range (min size (4092 - off))).map
                (fun k => (g.clusters (chain.getD k0 0)).data (off + k)))) := by
      conv_lhs => rw [read_loop]
      rw [hw]
    set r := min size (4092 - off) with hrdef
    have hchunk : (List.range r).map (fun k => (g.clusters (chain.getD k0 0)).data (off + k)) =
        (List.range r).map (fun t => chainByte g chain (k0 * 4092 + off + t)) := by
      refine List.map_congr_left ?_
      intro t ht
      rw [List.mem_range] at ht
      have hrle : r ≤ 4092 - off := Nat.min_le_right _ _
      have hdiv : (k0 * 4092 + off + t) / CLUSTER_DATA = k0 := by
        simp only [CLUSTER_DATA]
        omega
      have hmod : (k0 * 4092 + off + t) % CLUSTER_DATA = off + t := by
        simp only [CLUSTER_DATA]
        omega
      rw [chainByte]
      simp only [CLUSTER_DATA] at hdiv hmod ⊢
      rw [hdiv, hmod]
    by_cases hend : size - r = 0
    · have hreq : r = size := by
        have : r ≤ size := Nat.min_le_left _ _
        omega
      rw [heq0, if_pos hend, hchunk, hreq]
    · have hreq : r = 4092 - off := by
        have h1 : r ≤ size := Nat.min_le_left _ _
        have h2 : r ≤ 4092 - off := Nat.min_le_right _ _
        omega
      have hk1 : k0 + 1 < chain.length := by
        by_contra hcon
        push_neg at hcon
        have : chain.length * 4092 ≤ (k0 + 1) * 4092 := Nat.mul_le_mul_right _ hcon
        omega
      have hcnrb := hmem _ (getD_mem_of_lt chain hk0)
      have hnxtb := hmem _ (getD_mem_of_lt chain hk1)
      have hnext : cluster_next_nr g (chain.getD k0 0) = .ok (chain.getD (k0 + 1) 0) := by
        unfold cluster_next_nr
        rw [hlinks k0 hk1, if_neg (by omega), if_neg (not_le.2 hnxtb.2)]
      have hrec := ih g chain (size - r) (k0 + 1) 0
        (acc ++ (List.range r).map (fun t => chainByte g chain (k0 * 4092 + off + t)))
        hlinks hmem (by simp [CLUSTER_DATA]) hk1
        (by simp only [CLUSTER_DATA]; omega) (by omega)
      rw [heq0, if_neg hend, hnext, hchunk]
      show read_loop n g (chain.getD (k0 + 1) 0) (size - r) 0
          (acc ++ (List.range r).map (fun t => chainByte g chain (k0 * 4092 + off + t))) =
        Except.ok (acc ++ (List.range size).map
          (fun t => chainByte g chain (k0 * 4092 + off + t)))
      rw [hrec]
      simp only [CLUSTER_DATA]
      rw [List.append_assoc]
      have hsplit : size = r + (size - r) := by omega
      conv_rhs => rw [hsplit, List.range_add, List.map_append, List.map_map]
      refine congrArg (fun l => Except.ok (acc ++
        ((List.range r).map (fun t => chainByte g chain (k0 * 4092 + off + t)) ++ l))) ?_
      refine List.map_congr_left ?_
      intro t ht
      simp only [Function.comp]
      exact congrArg (fun n => chainByte g chain n) (by omega)

/-- C4 witness: the theorem applied to the all-zero store of capacity
`18 + 4096` with the constant digest function; the digests agree, so
mount succeeds. -/
theorem C4_witness :
    4114 ≤ exStore0.capacity ∧ 18 + 4096 * decodedCount exStore0 ≤ exStore0.capacity ∧
    (exMd5 (checkInput exStore0) = storedMd5 exStore0 →
      ∃ g, ghostfs_mount exMd5 exStore0 = .ok g ∧ g.cluster_count = decodedCount exStore0 ∧
        g.clusters = fun nr => storeCluster exStore0 nr) :=
  ⟨by decide, by decide, (C4_mount_checks_md5 exMd5 exStore0 (by decide) (by decide)).2⟩

/-! ## Helper lemmas for the write and truncate paths -/

/-- the spec-side file stays zero past its size. -/
theorem specWrite_zero_ext (f : SpecFile) (buf : List Nat) (off : Nat)
    (hz : ∀ i, f.size ≤ i → f.content i = 0) :
    ∀ i, (specWrite f buf off).size ≤ i → (specWrite f buf off).content i = 0 := by
  intro i hi
  simp only [specWrite] at hi ⊢
  rw [if_neg (by omega)]
  exact hz i (by omega)

theorem is_directory_of_lt (e : DirEntry) (h : e.size < 2 ^ 31) :
    dir_entry_is_directory e = false := by
  simp only [dir_entry_is_directory]
  rw [Nat.div_eq_of_lt h]
  rfl

theorem int64OfUInt64_small (x : Nat) (h : x < 2 ^ 63) : int64OfUInt64 x = (x : Int) := by
  unfold int64OfUInt64
  rw [Nat.mod_eq_of_lt (by omega), if_pos h]
  omega

theorem dir_entry_set_size_next (c : Cluster) (i ns : Nat) (d : Bool) :
    (dir_entry_set_size c i ns d).next = c.next := rfl

theorem dir_entry_set_size_used (c : Cluster) (i ns : Nat) (d : Bool) :
    (dir_entry_set_size c i ns d).used = c.used := rfl

theorem putClusterBytes_next (c : Cluster) (i v : Nat) : (putClusterBytes c i v).next = c.next :=
  rfl

theorem putClusterBytes_used (c : Cluster) (i v : Nat) : (putClusterBytes c i v).used = c.used :=
  rfl

/-- the cluster map after the `finish` step of `do_truncate_resize`. -/
theorem truncFinish_clusters (g : Ghostfs) (it : DirIter) (ns : Nat)
    (hroot : it.isRoot = false) (q : Nat) :
    (markNr (setEntrySizeAtIter g it ns false) it.cluster_nr).clusters q =
      if q = it.cluster_nr then
        mark_cluster (dir_entry_set_size (g.clusters it.cluster_nr) it.entry_nr ns false)
      else g.clusters q := by
  rw [setEntrySizeAtIter_slot g it ns false hroot, markNr_clusters]
  split_ifs with h
  · rw [clusters_setCluster, if_pos rfl]
  · rw [clusters_setCluster, if_neg h]

theorem setEntrySizeAtIter_counts (g : Ghostfs) (it : DirIter) (ns : Nat) (d : Bool) :
    (setEntrySizeAtIter g it ns d).cluster_count = g.cluster_count ∧
    (setEntrySizeAtIter g it ns d).free_clusters = g.free_clusters := by
  unfold setEntrySizeAtIter
  split_ifs <;> exact ⟨rfl, rfl⟩

theorem setEntryClusterAtIter_counts (g : Ghostfs) (it : DirIter) (v : Nat) :
    (setEntryClusterAtIter g it v).cluster_count = g.cluster_count ∧
    (setEntryClusterAtIter g it v).free_clusters = g.free_clusters := by
  unfold setEntryClusterAtIter
  split_ifs <;> exact ⟨rfl, rfl⟩

theorem setEntryCluster_clusters (g : Ghostfs) (it : DirIter) (v : Nat)
    (hroot : it.isRoot = false) (q : Nat) :
    (setEntryClusterAtIter g it v).clusters q =
      if q = it.cluster_nr then putClusterBytes (g.clusters it.cluster_nr) it.entry_nr v
      else g.clusters q := by
  rw [setEntryClusterAtIter_slot g it v hroot, clusters_setCluster]

/-- decoding the size just written by `dir_entry_set_size` for a file. -/
theorem getEntry_set_size_file (c : Cluster) (i ns : Nat) (hns : ns < 2 ^ 31) :
    (getEntry (dir_entry_set_size c i ns false) i).size = ns := by
  unfold dir_entry_set_size
  have hv : (ns % 2 ^ 31 + if (false : Bool) = true then 2 ^ 31 else 0) = ns := by
    rw [if_neg Bool.false_ne_true]
    omega
  rw [getEntry_putSizeBytes_size, hv]
  exact u32_decode ns (by omega)

/-- decoding the cluster number just written by `putClusterBytes`. -/
theorem getEntry_putClusterBytes_small (c : Cluster) (i v : Nat) (hv : v < 65536) :
    (getEntry (putClusterBytes c i v) i).cluster = v := by
  rw [getEntry_putClusterBytes_cluster]
  omega

/-- the common tail of every successful `do_truncate_resize` branch:
writing the entry's size field and marking the directory cluster turns a
state whose chain is already in shape into a well-formed file state with
the new size, without touching any chain cluster's payload. -/
theorem FileWF_truncFinish (GX : Ghostfs) (it : DirIter) (chain' : List Nat) (ns : Nat)
    (hroot : it.isRoot = false)
    (hcc_le : GX.cluster_count ≤ 65536)
    (hidx : it.entry_nr < CLUSTER_DIRENTS)
    (hdc_lt : it.cluster_nr < GX.cluster_count)
    (hdc_used : it.cluster_nr = 0 ∨ (GX.clusters it.cluster_nr).used ≠ 0)
    (hns : ns < 2 ^ 31)
    (hlen : chain'.length = size_to_clusters ns)
    (hhead : (entryAtIter GX it).cluster = chain'.headD 0)
    (hlinks : ∀ k, k + 1 < chain'.length →
      (GX.clusters (chain'.getD k 0)).next = chain'.getD (k + 1) 0)
    (hlast : ∀ h : chain' ≠ [], (GX.clusters (chain'.getLast h)).next = 0)
    (hnd : chain'.Nodup)
    (hmem : ∀ p ∈ chain', 1 ≤ p ∧ p < GX.cluster_count ∧ (GX.clusters p).used ≠ 0)
    (hdc : it.cluster_nr ∉ chain') :
    FileWF (markNr (setEntrySizeAtIter GX it ns false) it.cluster_nr) it chain' ∧
    (entryAtIter (markNr (setEntrySizeAtIter GX it ns false) it.cluster_nr) it).size = ns ∧
    (∀ i, i / CLUSTER_DATA < chain'.length →
      chainByte (markNr (setEntrySizeAtIter GX it ns false) it.cluster_nr) chain' i =
        chainByte GX chain' i) ∧
    (markNr (setEntrySizeAtIter GX it ns false) it.cluster_nr).free_clusters =
      GX.free_clusters := by
  have hcl := truncFinish_clusters GX it ns hroot
  have hcc : (markNr (setEntrySizeAtIter GX it ns false) it.cluster_nr).cluster_count =
      GX.cluster_count := by
    rw [markNr_cluster_count, (setEntrySizeAtIter_counts GX it ns false).1]
  have hentry : entryAtIter (markNr (setEntrySizeAtIter GX it ns false) it.cluster_nr) it =
      getEntry (mark_cluster
        (dir_entry_set_size (GX.clusters it.cluster_nr) it.entry_nr ns false)) it.entry_nr := by
    rw [entryAtIter_slot _ it hroot, hcl it.cluster_nr, if_pos rfl]
  have hsize : (entryAtIter (markNr (setEntrySizeAtIter GX it ns false) it.cluster_nr) it).size =
      ns := by
    rw [hentry, getEntry_mark, getEntry_set_size_file _ _ _ hns]
  have hclust :
      (entryAtIter (markNr (setEntrySizeAtIter GX it ns false) it.cluster_nr) it).cluster =
        (entryAtIter GX it).cluster := by
    rw [hentry, getEntry_mark]
    unfold dir_entry_set_size
    rw [getEntry_putSizeBytes_cluster, entryAtIter_slot GX it hroot]
  have hother : ∀ q, q ≠ it.cluster_nr →
      (markNr (setEntrySizeAtIter GX it ns false) it.cluster_nr).clusters q = GX.clusters q :=
    fun q hq => by rw [hcl q, if_neg hq]
  have hdcu : ((markNr (setEntrySizeAtIter GX it ns false) it.cluster_nr).clusters
      it.cluster_nr).used = (GX.clusters it.cluster_nr).used := by
    rw [hcl _, if_pos rfl, mark_cluster_used, dir_entry_set_size_used]
  have hne_dc : ∀ p ∈ chain', p ≠ it.cluster_nr := by
    intro p hp h
    exact hdc (h ▸ hp)
  refine ⟨⟨?_, hroot, hidx, ?_, ?_, ?_, ?_, ?_, ?_, ?_, hnd, ?_, hdc⟩, hsize, ?_, ?_⟩
  · rw [hcc]; exact hcc_le
  · rw [hcc]; exact hdc_lt
  · rcases hdc_used with h | h
    · exact Or.inl h
    · exact Or.inr (by rw [hdcu]; exact h)
  · rw [hsize]; omega
  · rw [hsize]; exact hlen
  · rw [hclust]; exact hhead
  · intro k hk
    rw [hother _ (hne_dc _ (getD_mem_of_lt chain' (by omega)))]
    exact hlinks k hk
  · intro h
    rw [hother _ (hne_dc _ (List.getLast_mem h))]
    exact hlast h
  · intro p hp
    have h3 := hmem p hp
    refine ⟨h3.1, by rw [hcc]; exact h3.2.1, ?_⟩
    rw [hother _ (hne_dc _ hp)]
    exact h3.2.2
  · intro i hi
    unfold chainByte
    rw [hother _ (hne_dc _ (getD_mem_of_lt chain' hi))]
  · rw [markNr_free_clusters, (setEntrySizeAtIter_counts GX it ns false).2]

/-- the grow path of `do_truncate`: on a well-formed file whose size is
below `ns ≤ FILESIZE_MAX`, a successful truncate to `ns` yields a
well-formed file of size `ns` whose content is the old content extended
with zeros. -/
theorem do_truncate_grow (g : Ghostfs) (it : DirIter) (chain : List Nat) (f : SpecFile)
    (ns : Nat) (g' : Ghostfs)
    (hwf : FileWF g it chain) (habs : FileAbs g it chain f)
    (hfree : g.free_clusters < 65536)
    (hns : ns ≤ FILESIZE_MAX) (hgrow : f.size < ns)
    (hres : do_truncate g it (ns : Int) = (g', .ok ())) :
    ∃ chain', FileWF g' it chain' ∧
      FileAbs g' it chain' ⟨ns, fun i => if i < f.size then f.content i else 0⟩ ∧
      g'.free_clusters < 65536 := by
  have hroot := hwf.not_root
  have hsz : (entryAtIter g it).size = f.size := habs.1
  have hns31 : ns < 2 ^ 31 := by simp only [FILESIZE_MAX] at hns; omega
  have hnot_neg : ¬ ((ns : Int) < 0) := by omega
  have hnot_big : ¬ ((FILESIZE_MAX : Int) < (ns : Int)) := by
    simp only [FILESIZE_MAX] at hns ⊢
    omega
  have hnot_dir : ¬ (dir_entry_is_directory (entryAtIter g it) = true) := by
    rw [is_directory_of_lt _ hwf.size_lt]
    exact Bool.false_ne_true
  have hmin : min (entryAtIter g it).size ns = f.size := by rw [hsz]; omega
  have hlen := hwf.len
  rw [hsz] at hlen
  have hmem2 : ∀ p ∈ chain, 1 ≤ p ∧ p < g.cluster_count := fun p hp =>
    ⟨(hwf.mem p hp).1, (hwf.mem p hp).2.1⟩
  have hdc_notin : ∀ ps : List Nat,
      (∀ p ∈ ps, 1 ≤ p ∧ p < g.cluster_count ∧ (g.clusters p).used = 0) →
      it.cluster_nr ∉ ps := by
    intro ps hmemps hin
    rcases hwf.dc_used with h0 | hu
    · have := (hmemps _ hin).1
      omega
    · exact hu (hmemps _ hin).2.2
  by_cases hfs0 : f.size = 0
  · -- the file is empty: no existing chain, a fresh chain is allocated
    have hstc0 : size_to_clusters 0 = 0 := by simp [size_to_clusters, CLUSTER_DATA]
    have hchain_nil : chain = [] := by
      have h := hlen
      rw [hfs0, hstc0] at h
      exact List.length_eq_zero.mp h
    have hns_pos : 0 < ns := by omega
    have hstep : do_truncate g it (ns : Int) =
        do_truncate_resize g it ns none (entryAtIter g it).cluster f.size 0 := by
      simp only [do_truncate]
      rw [if_neg hnot_neg, if_neg hnot_big, if_neg hnot_dir, Int.toNat_natCast, hsz,
        min_eq_left (le_of_lt hgrow), hfs0, hstc0]
      rw [if_neg (by omega : ¬ (0 : Nat) ≠ 0)]
    rw [hstep] at hres
    simp only [do_truncate_resize] at hres
    rw [if_pos (show f.size < ns from hgrow)] at hres
    rw [if_neg (show ¬ f.size % CLUSTER_DATA ≠ 0 by rw [hfs0, Nat.zero_mod]; omega)] at hres
    rw [if_pos (show size_to_clusters ns - 0 ≠ 0 by
      have := stc_pos ns hns_pos; omega)] at hres
    rcases h2 : alloc_clusters g (size_to_clusters ns - 0) true with ⟨g2, r2⟩
    rw [h2] at hres
    cases r2 with
    | error r =>
      exact Except.noConfusion (congrArg Prod.snd
        (show ((g2, (.error r : Except Nat Unit)) : Ghostfs × Except Nat Unit) =
          (g', .ok ()) from hres))
    | ok ret =>
      have hres' : (markNr (setEntrySizeAtIter (setEntryClusterAtIter g2 it ret) it ns false)
          it.cluster_nr, (.ok () : Except Nat Unit)) = (g', .ok ()) := hres
      have hg := congrArg Prod.fst hres'
      simp only [Prod.fst] at hg
      obtain ⟨ps, hfirst, hne, hlenps, hnd, hmemps, hunt, hcl, hlinksps, hlastps, hgcc, hgre,
        hgfc⟩ := alloc_clusters_ok g (size_to_clusters ns - 0) true g2 ret
          (by have := stc_pos ns hns_pos; omega) hfree h2
      rw [Nat.sub_zero] at hlenps hgfc
      have hdcps : it.cluster_nr ∉ ps := hdc_notin ps hmemps
      have hretlt : ret < 65536 := by
        have hm := hmemps _ (headD_mem ps hne)
        have hcc := hwf.cc_le
        rw [hfirst]
        omega
      have hne_dc_ps : ∀ p ∈ ps, p ≠ it.cluster_nr := by
        intro p hp h
        exact hdcps (h ▸ hp)
      have hGXcl : ∀ p ∈ ps, (setEntryClusterAtIter g2 it ret).clusters p = g2.clusters p := by
        intro p hp
        rw [setEntryCluster_clusters g2 it ret hroot, if_neg (hne_dc_ps p hp)]
      have hGXcc : (setEntryClusterAtIter g2 it ret).cluster_count = g.cluster_count := by
        rw [(setEntryClusterAtIter_counts g2 it ret).1, hgcc]
      obtain ⟨hWF, hSIZE, hCB, hFREE⟩ := FileWF_truncFinish (setEntryClusterAtIter g2 it ret)
        it ps ns hroot
        (by rw [hGXcc]; exact hwf.cc_le)
        hwf.idx
        (by rw [hGXcc]; exact hwf.dc_lt)
        (by
          rcases hwf.dc_used with h0 | hu
          · exact Or.inl h0
          · refine Or.inr ?_
            rw [setEntryCluster_clusters g2 it ret hroot, if_pos rfl, putClusterBytes_used,
              hunt _ hdcps]
            exact hu)
        hns31
        (by rw [hlenps])
        (by
          rw [entryAtIter_slot _ it hroot, setEntryCluster_clusters g2 it ret hroot,
            if_pos rfl, getEntry_putClusterBytes_small _ _ _ hretlt]
          exact hfirst)
        (by
          intro k hk
          rw [hGXcl _ (getD_mem_of_lt ps (by omega))]
          exact hlinksps k hk)
        (by
          intro h
          rw [hGXcl _ (List.getLast_mem h)]
          exact hlastps h)
        hnd
        (by
          intro p hp
          refine ⟨(hmemps p hp).1, by rw [hGXcc]; exact (hmemps p hp).2.1, ?_⟩
          rw [hGXcl p hp]
          have := (hcl p hp).1
          omega)
        hdcps
      rw [hg] at hWF hSIZE hCB hFREE
      refine ⟨ps, hWF, ⟨hSIZE, ?_⟩, ?_⟩
      · intro i hi
        have hidx : i / CLUSTER_DATA < ps.length := by
          rw [hlenps]
          exact stc_div_lt i ns hi
        rw [hCB i hidx]
        have hp : ps.getD (i / CLUSTER_DATA) 0 ∈ ps := getD_mem_of_lt ps hidx
        show chainByte (setEntryClusterAtIter g2 it ret) ps i = _
        unfold chainByte
        rw [hGXcl _ hp]
        have hz := (hcl _ hp).2 (i % CLUSTER_DATA)
        rw [hz, if_pos ⟨rfl, Nat.mod_lt _ (by simp [CLUSTER_DATA])⟩]
        show (0 : Nat) = if i < f.size then f.content i else 0
        rw [if_neg (show ¬ i < f.size by omega)]
      · rw [hFREE, (setEntryClusterAtIter_counts g2 it ret).2, hgfc]
        exact Nat.mod_lt _ (by omega)
  · -- the file is nonempty: locate the terminal cluster of the chain
    have hfs_pos : 0 < f.size := Nat.pos_of_ne_zero hfs0
    have hcount_pos : 1 ≤ chain.length := by
      rw [hlen]
      exact stc_pos _ hfs_pos
    have hchain_ne : chain ≠ [] := by
      intro h
      rw [h] at hcount_pos
      simp at hcount_pos
    have hcat : cluster_at_nr g (chain.headD 0) (chain.length - 1) =
        .ok (chain.getD (chain.length - 1) 0) :=
      cluster_at_nr_chain g chain (chain.length - 1) hwf.links hmem2 (by omega)
    have hcnr_last : chain.getLast hchain_ne = chain.getD (chain.length - 1) 0 :=
      getLast_eq_getD chain hchain_ne
    have hnext0 : (g.clusters (chain.getD (chain.length - 1) 0)).next = 0 := by
      rw [← hcnr_last]
      exact hwf.last_next hchain_ne
    have hcnr_mem : chain.getD (chain.length - 1) 0 ∈ chain :=
      getD_mem_of_lt chain (by omega)
    have hdc_ne_cnr : it.cluster_nr ≠ chain.getD (chain.length - 1) 0 := by
      intro h
      exact hwf.dc_chain (h ▸ hcnr_mem)
    have hstep : do_truncate g it (ns : Int) =
        do_truncate_resize g it ns (some (chain.getD (chain.length - 1) 0))
          ((g.clusters (chain.getD (chain.length - 1) 0)).next) f.size chain.length := by
      simp only [do_truncate]
      rw [if_neg hnot_neg, if_neg hnot_big, if_neg hnot_dir, Int.toNat_natCast, hsz,
        min_eq_left (le_of_lt hgrow), ← hlen]
      rw [if_pos (show chain.length ≠ 0 by omega)]
      rw [hwf.head, hcat]
    rw [hstep] at hres
    simp only [do_truncate_resize] at hres
    rw [if_pos (show f.size < ns from hgrow)] at hres
    by_cases halloc0 : size_to_clusters ns - chain.length = 0
    · -- no new clusters needed: only the tail of the terminal cluster is zeroed
      have hstc_eq : size_to_clusters ns = chain.length := by
        have h1 := stc_mono (le_of_lt hgrow)
        rw [← hlen] at h1
        omega
      have hused : f.size % CLUSTER_DATA ≠ 0 := by
        intro h0
        have h1 := stc_le ns
        have h2 : size_to_clusters f.size = f.size / CLUSTER_DATA := by
          simp [size_to_clusters, h0]
        have h3 : f.size / CLUSTER_DATA * CLUSTER_DATA ≤ f.size := Nat.div_mul_le_self _ _
        rw [hstc_eq, hlen, h2] at h1
        omega
      rw [if_neg (fun h => h halloc0), if_pos hused] at hres
      rw [Prod.mk.injEq] at hres
      obtain ⟨hg, -⟩ := hres
      have hsize_facts : (chain.length - 1) * CLUSTER_DATA < f.size ∧
          f.size ≤ chain.length * CLUSTER_DATA := by
        constructor
        · have := stc_lower f.size hfs_pos
          rw [← hlen] at this
          exact this
        · have := stc_le f.size
          rw [← hlen] at this
          exact this
      obtain ⟨hWF, hSIZE, hCB, hFREE⟩ := FileWF_truncFinish
        (setCluster g (chain.getD (chain.length - 1) 0)
          { g.clusters (chain.getD (chain.length - 1) 0) with
            data := (fun j => if f.size % CLUSTER_DATA ≤ j ∧ j < CLUSTER_DATA then 0
              else (g.clusters (chain.getD (chain.length - 1) 0)).data j),
            dirty := 1 })
        it chain ns hroot
        hwf.cc_le
        hwf.idx
        hwf.dc_lt
        (by
          rcases hwf.dc_used with h0 | hu
          · exact Or.inl h0
          · refine Or.inr ?_
            rw [clusters_setCluster, if_neg hdc_ne_cnr]
            exact hu)
        hns31
        (by rw [hstc_eq])
        (by
          rw [entryAtIter_slot _ it hroot, clusters_setCluster, if_neg hdc_ne_cnr,
            ← entryAtIter_slot g it hroot]
          exact hwf.head)
        (by
          intro k hk
          rw [clusters_setCluster]
          split_ifs with h
          · show (g.clusters (chain.getD (chain.length - 1) 0)).next = chain.getD (k + 1) 0
            rw [← h]
            exact hwf.links k hk
          · exact hwf.links k hk)
        (by
          intro h
          rw [hcnr_last, clusters_setCluster, if_pos rfl]
          show (g.clusters (chain.getD (chain.length - 1) 0)).next = 0
          exact hnext0)
        hwf.nodup
        (by
          intro p hp
          refine ⟨(hwf.mem p hp).1, (hwf.mem p hp).2.1, ?_⟩
          rw [clusters_setCluster]
          split_ifs with h
          · show (g.clusters (chain.getD (chain.length - 1) 0)).used ≠ 0
            rw [← h]
            exact (hwf.mem p hp).2.2
          · exact (hwf.mem p hp).2.2)
        hwf.dc_chain
      rw [hg] at hWF hSIZE hCB hFREE
      refine ⟨chain, hWF, ⟨hSIZE, ?_⟩, ?_⟩
      · intro i hi
        have hidx : i / CLUSTER_DATA < chain.length := by
          rw [← hstc_eq]
          exact stc_div_lt i ns hi
        rw [hCB i hidx]
        show chainByte _ chain i = _
        unfold chainByte
        rw [clusters_setCluster]
        by_cases hm : chain.getD (i / CLUSTER_DATA) 0 = chain.getD (chain.length - 1) 0
        · have hkeq : i / CLUSTER_DATA = chain.length - 1 := by
            by_contra hne'
            exact nodup_getD_ne chain hwf.nodup hidx (by omega) hne' hm
          rw [hm, if_pos rfl]
          show (if f.size % CLUSTER_DATA ≤ i % CLUSTER_DATA ∧ i % CLUSTER_DATA < CLUSTER_DATA
            then 0 else (g.clusters (chain.getD (chain.length - 1) 0)).data
              (i % CLUSTER_DATA)) =
            if i < f.size then f.content i else 0
          simp only [CLUSTER_DATA] at hkeq hsize_facts hused ⊢
          split_ifs with hcond hlt hlt
          · omega
          · rfl
          · have hcb := habs.2 i hlt
            unfold chainByte at hcb
            simp only [CLUSTER_DATA] at hcb
            rw [hkeq] at hcb
            exact hcb
          · omega
        · rw [if_neg hm]
          have hklt : i / CLUSTER_DATA ≠ chain.length - 1 := by
            intro h
            exact hm (by rw [h])
          have hif : i < f.size := by
            simp only [CLUSTER_DATA] at hsize_facts hklt hidx ⊢
            omega
          show (g.clusters (chain.getD (i / CLUSTER_DATA) 0)).data (i % CLUSTER_DATA) =
            if i < f.size then f.content i else 0
          rw [if_pos hif]
          exact habs.2 i hif
      · rw [hFREE]
        exact hfree
    · -- new clusters are allocated and linked after the terminal cluster
      rw [if_pos halloc0] at hres
      obtain ⟨G1, hG1res, hG1cc, hG1re, hG1free, hG1nu, hG1other, hG1cnr⟩ :
          ∃ G1 : Ghostfs,
            (match alloc_clusters G1 (size_to_clusters ns - chain.length) true with
              | (g2, .error r) => (g2, .error r)
              | (g2, .ok ret) =>
                (markNr (setEntrySizeAtIter (setCluster g2 (chain.getD (chain.length - 1) 0)
                    { g2.clusters (chain.getD (chain.length - 1) 0) with
                      next := ret, dirty := 1 }) it ns false) it.cluster_nr,
                  (.ok () : Except Nat Unit))) = (g', .ok ()) ∧
            G1.cluster_count = g.cluster_count ∧
            G1.root_entry = g.root_entry ∧
            G1.free_clusters = g.free_clusters ∧
            (∀ q, (G1.clusters q).next = (g.clusters q).next ∧
              (G1.clusters q).used = (g.clusters q).used) ∧
            (∀ q, q ≠ chain.getD (chain.length - 1) 0 → G1.clusters q = g.clusters q) ∧
            (∀ j, (G1.clusters (chain.getD (chain.length - 1) 0)).data j =
              if j < f.size % CLUSTER_DATA ∨ f.size % CLUSTER_DATA = 0 ∨ CLUSTER_DATA ≤ j
              then (g.clusters (chain.getD (chain.length - 1) 0)).data j else 0) := by
        by_cases hused : f.size % CLUSTER_DATA ≠ 0
        · rw [if_pos hused] at hres
          refine ⟨_, hres, rfl, rfl, rfl, ?_, ?_, ?_⟩
          · intro q
            rw [clusters_setCluster]
            split_ifs with h
            · rw [h]
              exact ⟨rfl, rfl⟩
            · exact ⟨rfl, rfl⟩
          · intro q hq
            rw [clusters_setCluster, if_neg hq]
          · intro j
            rw [clusters_setCluster, if_pos rfl]
            show (if f.size % CLUSTER_DATA ≤ j ∧ j < CLUSTER_DATA then 0
              else (g.clusters (chain.getD (chain.length - 1) 0)).data j) = _
            split_ifs <;> first | rfl | omega
        · rw [if_neg hused] at hres
          refine ⟨g, hres, rfl, rfl, rfl, fun q => ⟨rfl, rfl⟩, fun q _ => rfl, ?_⟩
          intro j
          rw [if_pos (Or.inr (Or.inl (by omega)))]
      rcases h2 : alloc_clusters G1 (size_to_clusters ns - chain.length) true with ⟨g2, r2⟩
      rw [h2] at hG1res
      cases r2 with
      | error r =>
        exact Except.noConfusion (congrArg Prod.snd
          (show ((g2, (.error r : Except Nat Unit)) : Ghostfs × Except Nat Unit) =
            (g', .ok ()) from hG1res))
      | ok ret =>
        have hres' : (markNr (setEntrySizeAtIter
            (setCluster g2 (chain.getD (chain.length - 1) 0)
              { g2.clusters (chain.getD (chain.length - 1) 0) with
                next := ret, dirty := 1 })
            it ns false) it.cluster_nr, (.ok () : Except Nat Unit)) = (g', .ok ()) := hG1res
        rw [Prod.mk.injEq] at hres'
        obtain ⟨hg, -⟩ := hres'
        obtain ⟨ps, hfirst, hne, hlenps, hndps, hmemps, hunt, hcl, hlinksps, hlastps, hgcc,
          hgre, hgfc⟩ := alloc_clusters_ok G1 (size_to_clusters ns - chain.length) true g2 ret
            (by omega) (by rw [hG1free]; exact hfree) h2
        have hmemps' : ∀ p ∈ ps, 1 ≤ p ∧ p < g.cluster_count ∧ (g.clusters p).used = 0 := by
          intro p hp
          obtain ⟨h1, h2', h3⟩ := hmemps p hp
          exact ⟨h1, by rw [← hG1cc]; exact h2', by rw [← (hG1nu p).2]; exact h3⟩
        have hdisj : ∀ p ∈ ps, p ∉ chain := by
          intro p hp hpc
          exact (hwf.mem p hpc).2.2 (hmemps' p hp).2.2
        have hps_ne_cnr : ∀ p ∈ ps, p ≠ chain.getD (chain.length - 1) 0 := by
          intro p hp h
          exact hdisj p hp (h ▸ hcnr_mem)
        have hdcps : it.cluster_nr ∉ ps := hdc_notin ps hmemps'
        have hlen_total : (chain ++ ps).length = size_to_clusters ns := by
          rw [List.length_append, hlenps]
          have h1 := stc_mono (le_of_lt hgrow)
          rw [← hlen] at h1
          omega
        have hGXcl : ∀ q, (setCluster g2 (chain.getD (chain.length - 1) 0)
            { g2.clusters (chain.getD (chain.length - 1) 0) with
              next := ret, dirty := 1 }).clusters q =
            if q = chain.getD (chain.length - 1) 0 then
              { g2.clusters (chain.getD (chain.length - 1) 0) with next := ret, dirty := 1 }
            else g2.clusters q := fun q => clusters_setCluster g2 _ _ q
        have hg2chain : ∀ p ∈ chain, p ≠ chain.getD (chain.length - 1) 0 →
            g2.clusters p = g.clusters p := by
          intro p hp hpne
          rw [hunt p (fun hin => hdisj p hin hp), hG1other p hpne]
        have hcnr_nin_ps : chain.getD (chain.length - 1) 0 ∉ ps := by
          intro h
          exact hps_ne_cnr _ h rfl
        have hg2cnr : g2.clusters (chain.getD (chain.length - 1) 0) =
            G1.clusters (chain.getD (chain.length - 1) 0) := hunt _ hcnr_nin_ps
        have hsize_facts : (chain.length - 1) * CLUSTER_DATA < f.size ∧
            f.size ≤ chain.length * CLUSTER_DATA := by
          constructor
          · have := stc_lower f.size hfs_pos
            rw [← hlen] at this
            exact this
          · have := stc_le f.size
            rw [← hlen] at this
            exact this
        obtain ⟨hWF, hSIZE, hCB, hFREE⟩ := FileWF_truncFinish
          (setCluster g2 (chain.getD (chain.length - 1) 0)
            { g2.clusters (chain.getD (chain.length - 1) 0) with next := ret, dirty := 1 })
          it (chain ++ ps) ns hroot
          (by
            show (setCluster g2 _ _).cluster_count ≤ 65536
            show g2.cluster_count ≤ 65536
            rw [hgcc, hG1cc]
            exact hwf.cc_le)
          hwf.idx
          (by
            show it.cluster_nr < g2.cluster_count
            rw [hgcc, hG1cc]
            exact hwf.dc_lt)
          (by
            rcases hwf.dc_used with h0 | hu
            · exact Or.inl h0
            · refine Or.inr ?_
              rw [hGXcl, if_neg hdc_ne_cnr, hunt _ hdcps, (hG1nu it.cluster_nr).2]
              exact hu)
          hns31
          hlen_total
          (by
            rw [entryAtIter_slot _ it hroot, hGXcl, if_neg hdc_ne_cnr, hunt _ hdcps,
              hG1other _ hdc_ne_cnr, ← entryAtIter_slot g it hroot,
              headD_append chain ps hchain_ne]
            exact hwf.head)
          (by
            intro k hk
            rw [List.length_append] at hk
            by_cases hkc : k + 1 < chain.length
            · rw [List.getD_append _ _ _ _ (by omega), List.getD_append _ _ _ _ hkc, hGXcl]
              split_ifs with h
              · exfalso
                exact nodup_getD_ne chain hwf.nodup (by omega) (by omega) (by omega) h
              · rw [hg2chain _ (getD_mem_of_lt chain (by omega)) h]
                exact hwf.links k hkc
            · by_cases hkeq : k + 1 = chain.length
              · rw [List.getD_append _ _ _ _ (by omega), List.getD_append_right _ _ _ _
                  (by omega), hkeq, Nat.sub_self]
                have hgd : chain.getD k 0 = chain.getD (chain.length - 1) 0 := by
                  rw [show k = chain.length - 1 by omega]
                rw [hgd, hGXcl, if_pos rfl]
                show ret = ps.getD 0 0
                rw [hfirst, headD_eq_getD]
              · rw [List.getD_append_right _ _ _ _ (by omega),
                  List.getD_append_right _ _ _ _ (by omega)]
                have hpk : ps.getD (k - chain.length) 0 ∈ ps :=
                  getD_mem_of_lt ps (by omega)
                rw [hGXcl, if_neg (hps_ne_cnr _ hpk)]
                have := hlinksps (k - chain.length) (by omega)
                rw [show k + 1 - chain.length = k - chain.length + 1 by omega]
                exact this
          )
          (by
            intro h
            have hne2 : chain ++ ps ≠ [] := h
            rw [List.getLast_append_of_ne_nil hne, hGXcl,
              if_neg (hps_ne_cnr _ (List.getLast_mem hne))]
            exact hlastps hne)
          (by
            rw [List.nodup_append]
            exact ⟨hwf.nodup, hndps, fun a ha hb => hdisj a hb ha⟩)
          (by
            intro p hp
            rcases List.mem_append.mp hp with hp1 | hp2
            · refine ⟨(hwf.mem p hp1).1, ?_, ?_⟩
              · show p < g2.cluster_count
                rw [hgcc, hG1cc]
                exact (hwf.mem p hp1).2.1
              · rw [hGXcl]
                split_ifs with h
                · show (g2.clusters (chain.getD (chain.length - 1) 0)).used ≠ 0
                  rw [hg2cnr, (hG1nu _).2]
                  rw [← h]
                  exact (hwf.mem p hp1).2.2
                · rw [hg2chain p hp1 h]
                  exact (hwf.mem p hp1).2.2
            · refine ⟨(hmemps p hp2).1, ?_, ?_⟩
              · show p < g2.cluster_count
                rw [hgcc, hG1cc]
                exact (hmemps' p hp2).2.1
              · rw [hGXcl, if_neg (hps_ne_cnr _ hp2)]
                have := (hcl p hp2).1
                omega)
          (by
            intro h
            rcases List.mem_append.mp h with h1 | h2
            · exact hwf.dc_chain h1
            · exact hdcps h2)
        rw [hg] at hWF hSIZE hCB hFREE
        refine ⟨chain ++ ps, hWF, ⟨hSIZE, ?_⟩, ?_⟩
        · intro i hi
          have hidx : i / CLUSTER_DATA < (chain ++ ps).length := by
            rw [hlen_total]
            exact stc_div_lt i ns hi
          rw [hCB i hidx]
          show chainByte _ (chain ++ ps) i = _
          unfold chainByte
          by_cases hmz : i / CLUSTER_DATA < chain.length
          · rw [List.getD_append _ _ _ _ hmz, hGXcl]
            by_cases hm : chain.getD (i / CLUSTER_DATA) 0 = chain.getD (chain.length - 1) 0
            · have hkeq : i / CLUSTER_DATA = chain.length - 1 := by
                by_contra hne'
                exact nodup_getD_ne chain hwf.nodup hmz (by omega) hne' hm
              rw [hm, if_pos rfl]
              show (g2.clusters (chain.getD (chain.length - 1) 0)).data (i % CLUSTER_DATA) = _
              rw [hg2cnr, hG1cnr (i % CLUSTER_DATA)]
              by_cases hif : i < f.size
              · rw [if_pos (by
                  simp only [CLUSTER_DATA] at hkeq hsize_facts ⊢
                  omega)]
                show (g.clusters (chain.getD (chain.length - 1) 0)).data (i % CLUSTER_DATA) =
                  if i < f.size then f.content i else 0
                rw [if_pos hif]
                have hcb := habs.2 i hif
                unfold chainByte at hcb
                rw [hkeq] at hcb
                exact hcb
              · rw [if_neg (by
                  simp only [CLUSTER_DATA] at hkeq hsize_facts ⊢
                  omega)]
                show (0 : Nat) = if i < f.size then f.content i else 0
                rw [if_neg hif]
            · rw [if_neg hm]
              have hklt : i / CLUSTER_DATA ≠ chain.length - 1 := by
                intro h
                exact hm (by rw [h])
              have hif : i < f.size := by
                simp only [CLUSTER_DATA] at hsize_facts hklt hmz ⊢
                omega
              rw [hg2chain _ (getD_mem_of_lt chain hmz) hm]
              show (g.clusters (chain.getD (i / CLUSTER_DATA) 0)).data (i % CLUSTER_DATA) =
                if i < f.size then f.content i else 0
              rw [if_pos hif]
              exact habs.2 i hif
          · rw [List.getD_append_right _ _ _ _ (by omega)]
            have hpk : ps.getD (i / CLUSTER_DATA - chain.length) 0 ∈ ps := by
              refine getD_mem_of_lt ps ?_
              rw [List.length_append] at hidx
              omega
            rw [hGXcl, if_neg (hps_ne_cnr _ hpk)]
            have hz := (hcl _ hpk).2 (i % CLUSTER_DATA)
            rw [hz, if_pos ⟨rfl, Nat.mod_lt _ (by simp [CLUSTER_DATA])⟩]
            show (0 : Nat) = if i < f.size then f.content i else 0
            rw [if_neg (show ¬ i < f.size by
              simp only [CLUSTER_DATA] at hsize_facts hmz ⊢
              omega)]
        · rw [hFREE]
          show g2.free_clusters < 65536
          rw [hgfc, hG1free]
          exact Nat.mod_lt _ (by omega)

theorem entryAtIter_congr (g2 g1 : Ghostfs) (it : DirIter) (hroot : it.isRoot = false)
    (h : g2.clusters it.cluster_nr = g1.clusters it.cluster_nr) :
    entryAtIter g2 it = entryAtIter g1 it := by
  rw [entryAtIter_slot _ _ hroot, entryAtIter_slot _ _ hroot, h]

/-- a successful `ghostfs_write` on a well-formed file refines one
spec-side write: the state stays well formed and the abstract contents
become `specWrite f buf off`.  The bounds on `off` and `buf.length` are
the `off_t` and `size_t` domains of the C arguments. -/
theorem ghostfs_write_ok (g : Ghostfs) (it : DirIter) (chain : List Nat) (f : SpecFile)
    (buf : List Nat) (off : Nat) (g' : Ghostfs) (w : Nat)
    (hwf : FileWF g it chain) (habs : FileAbs g it chain f)
    (hz : ∀ i, f.size ≤ i → f.content i = 0)
    (hfree : g.free_clusters < 65536)
    (hoff : off < 2 ^ 63) (hbuflen : buf.length < 2 ^ 64)
    (hres : ghostfs_write g it buf (off : Int) = (g', .ok w)) :
    ∃ chain', FileWF g' it chain' ∧ FileAbs g' it chain' (specWrite f buf off) ∧
      g'.free_clusters < 65536 := by
  have hroot := hwf.not_root
  have hsz : (entryAtIter g it).size = f.size := habs.1
  simp only [ghostfs_write] at hres
  rw [if_neg (show ¬ ((off : Int) < 0) by omega), Int.toNat_natCast] at hres
  by_cases hov : (buf.length + off) % 2 ^ 64 < buf.length
  · rw [if_pos hov] at hres
    exact Except.noConfusion (congrArg Prod.snd hres)
  · rw [if_neg hov] at hres
    have hsum64 : off + buf.length < 2 ^ 64 := by omega
    obtain ⟨g1, chain1, hres1, hwf1, habs1, hfree1⟩ :
        ∃ (g1 : Ghostfs) (chain1 : List Nat),
          (match cluster_at_nr g1 (entryAtIter g1 it).cluster (off / CLUSTER_DATA) with
            | .error r => (g1, .error r)
            | .ok cnr =>
              write_loop (buf.length + 1) g1 cnr buf buf.length (off % CLUSTER_DATA) 0) =
            (g', .ok w) ∧
          FileWF g1 it chain1 ∧
          FileAbs g1 it chain1 ⟨max f.size (off + buf.length),
            fun i => if i < f.size then f.content i else 0⟩ ∧
          g1.free_clusters < 65536 := by
      by_cases hgrow : (entryAtIter g it).size < off + buf.length
      · rw [if_pos hgrow] at hres
        rw [hsz] at hgrow
        by_cases hx63 : off + buf.length < 2 ^ 63
        · rw [int64OfUInt64_small _ hx63] at hres
          rcases hdt : do_truncate g it ((off + buf.length : Nat) : Int) with ⟨g1, rt⟩
          rw [hdt] at hres
          cases rt with
          | error r =>
            exact Except.noConfusion (congrArg Prod.snd
              (show ((g1, (.error r : Except Nat Nat)) : Ghostfs × Except Nat Nat) =
                (g', .ok w) from hres))
          | ok u =>
            by_cases hbig : FILESIZE_MAX < off + buf.length
            · exfalso
              have hdt2 : do_truncate g it ((off + buf.length : Nat) : Int) =
                  (g, .error efbig) := by
                unfold do_truncate
                rw [if_neg (show ¬ (((off + buf.length : Nat) : Int) < 0) by omega)]
                rw [if_pos (show (FILESIZE_MAX : Int) < ((off + buf.length : Nat) : Int) by
                  simp only [FILESIZE_MAX] at hbig ⊢
                  omega)]
              rw [hdt2] at hdt
              exact Except.noConfusion (congrArg Prod.snd hdt)
            · obtain ⟨chain1, hwf1, habs1, hfree1⟩ := do_truncate_grow g it chain f
                (off + buf.length) g1 hwf habs hfree (by omega) hgrow (by rw [hdt])
              refine ⟨g1, chain1, hres, hwf1, ?_, hfree1⟩
              have hmax : max f.size (off + buf.length) = off + buf.length := by omega
              rw [hmax]
              exact habs1
        · exfalso
          have hneg : int64OfUInt64 (off + buf.length) < 0 := by
            unfold int64OfUInt64
            rw [Nat.mod_eq_of_lt hsum64, if_neg (by omega)]
            omega
          have hdt2 : do_truncate g it (int64OfUInt64 (off + buf.length)) =
              (g, .error einval) := by
            unfold do_truncate
            rw [if_pos hneg]
          rw [hdt2] at hres
          exact Except.noConfusion (congrArg Prod.snd
            (show ((g, (.error einval : Except Nat Nat)) : Ghostfs × Except Nat Nat) =
              (g', .ok w) from hres))
      · rw [if_neg hgrow] at hres
        rw [hsz] at hgrow
        refine ⟨g, chain, hres, hwf, ⟨?_, ?_⟩, hfree⟩
        · rw [hsz]
          show f.size = max f.size (off + buf.length)
          omega
        · intro i hi
          show chainByte g chain i = if i < f.size then f.content i else 0
          have hif : i < f.size := by
            have : max f.size (off + buf.length) = f.size := by omega
            rw [this] at hi
            exact hi
          rw [if_pos hif]
          exact habs.2 i hif
    have hroot1 := hwf1.not_root
    have hsz1 : (entryAtIter g1 it).size = max f.size (off + buf.length) := habs1.1
    have hcov_size : off + buf.length ≤ max f.size (off + buf.length) := le_max_right _ _
    have hlen1 : chain1.length = size_to_clusters (max f.size (off + buf.length)) := by
      rw [hwf1.len, hsz1]
    have hmem1 : ∀ p ∈ chain1, 1 ≤ p ∧ p < g1.cluster_count := fun p hp =>
      ⟨(hwf1.mem p hp).1, (hwf1.mem p hp).2.1⟩
    have hidx : off / CLUSTER_DATA < chain1.length := by
      by_contra hbey
      push_neg at hbey
      have hcat := cluster_at_nr_beyond g1 chain1 (off / CLUSTER_DATA) hwf1.links
        hwf1.last_next hmem1 hbey
      rw [hwf1.head, hcat] at hres1
      exact Except.noConfusion (congrArg Prod.snd
        (show ((g1, (.error eio : Except Nat Nat)) : Ghostfs × Except Nat Nat) =
          (g', .ok w) from hres1))
    have hcat := cluster_at_nr_chain g1 chain1 (off / CLUSTER_DATA) hwf1.links hmem1 hidx
    rw [hwf1.head, hcat] at hres1
    have hres2 : write_loop (buf.length + 1) g1 (chain1.getD (off / CLUSTER_DATA) 0) buf
        buf.length (off % CLUSTER_DATA) 0 = (g', .ok w) := hres1
    obtain ⟨g2, hwres, hcc2, hre2, hfree2, hunt2, hnu2, hdata2⟩ := write_loop_spec
      (buf.length + 1) g1 chain1 buf (off / CLUSTER_DATA) (off % CLUSTER_DATA) 0
      hwf1.links hmem1 hwf1.nodup
      (Nat.mod_lt _ (by simp [CLUSTER_DATA])) hidx
      (by
        have h1 : off / CLUSTER_DATA * CLUSTER_DATA + off % CLUSTER_DATA = off :=
          Nat.div_add_mod' off CLUSTER_DATA
        have h2 := stc_le (max f.size (off + buf.length))
        rw [← hlen1] at h2
        omega)
      (by omega)
    rw [hwres] at hres2
    rw [Prod.mk.injEq] at hres2
    obtain ⟨hg', -⟩ := hres2
    have hdc1 : g2.clusters it.cluster_nr = g1.clusters it.cluster_nr :=
      hunt2 _ hwf1.dc_chain
    have hentry2 : entryAtIter g2 it = entryAtIter g1 it :=
      entryAtIter_congr g2 g1 it hroot1 hdc1
    refine ⟨chain1, ?_, ⟨?_, ?_⟩, ?_⟩
    · rw [← hg']
      exact ⟨by rw [hcc2]; exact hwf1.cc_le, hroot1, hwf1.idx,
        by rw [hcc2]; exact hwf1.dc_lt,
        (by
          rcases hwf1.dc_used with h0 | hu
          · exact Or.inl h0
          · exact Or.inr (by rw [(hnu2 it.cluster_nr).2]; exact hu)),
        by rw [hentry2]; exact hwf1.size_lt,
        by rw [hentry2]; exact hwf1.len,
        by rw [hentry2]; exact hwf1.head,
        (by
          intro k hk
          rw [(hnu2 _).1]
          exact hwf1.links k hk),
        (by
          intro h
          rw [(hnu2 _).1]
          exact hwf1.last_next h),
        hwf1.nodup,
        (by
          intro p hp
          refine ⟨(hwf1.mem p hp).1, by rw [hcc2]; exact (hwf1.mem p hp).2.1, ?_⟩
          rw [(hnu2 p).2]
          exact (hwf1.mem p hp).2.2),
        hwf1.dc_chain⟩
    · rw [← hg', hentry2, hsz1]
      show max f.size (off + buf.length) = max f.size (off + buf.length)
      rfl
    · intro i hi
      have hi' : i < max f.size (off + buf.length) := hi
      have hmlt : i / CLUSTER_DATA < chain1.length := by
        rw [hlen1]
        exact stc_div_lt i _ hi'
      have hjlt : i % CLUSTER_DATA < CLUSTER_DATA := Nat.mod_lt _ (by simp [CLUSTER_DATA])
      rw [← hg']
      unfold chainByte
      rw [hdata2 (i / CLUSTER_DATA) (i % CLUSTER_DATA) hmlt hjlt]
      have hsplit : i / CLUSTER_DATA * CLUSTER_DATA + i % CLUSTER_DATA = i :=
        Nat.div_add_mod' i CLUSTER_DATA
      have hoffsplit : off / CLUSTER_DATA * CLUSTER_DATA + off % CLUSTER_DATA = off :=
        Nat.div_add_mod' off CLUSTER_DATA
      show _ = (specWrite f buf off).content i
      simp only [specWrite]
      by_cases hwin : off ≤ i ∧ i < off + buf.length
      · rw [if_pos (by omega), if_pos hwin]
        congr 1
        omega
      · rw [if_neg (by omega), if_neg hwin]
        have hold : (g1.clusters (chain1.getD (i / CLUSTER_DATA) 0)).data (i % CLUSTER_DATA) =
            if i < f.size then f.content i else 0 := habs1.2 i hi'
        rw [hold]
        split_ifs with hlt
        · rfl
        · rw [hz i (by omega)]
    · rw [← hg', hfree2]
      exact hfree1

/-- folding `ghostfs_write_ok` over a successful write sequence. -/
theorem applyWrites_spec :
    ∀ (ws : List (List Nat × Nat)) (g : Ghostfs) (it : DirIter) (chain : List Nat)
      (f : SpecFile),
      FileWF g it chain → FileAbs g it chain f →
      (∀ i, f.size ≤ i → f.content i = 0) →
      g.free_clusters < 65536 →
      (∀ p ∈ ws, p.2 < 2 ^ 63 ∧ p.1.length < 2 ^ 64) →
      (applyWrites g it ws).2 = true →
      ∃ chain', FileWF (applyWrites g it ws).1 it chain' ∧
        FileAbs (applyWrites g it ws).1 it chain'
          (ws.foldl (fun f bo => specWrite f bo.1 bo.2) f) ∧
        (∀ i, (ws.foldl (fun f bo => specWrite f bo.1 bo.2) f).size ≤ i →
          (ws.foldl (fun f bo => specWrite f bo.1 bo.2) f).content i = 0) ∧
        (applyWrites g it ws).1.free_clusters < 65536 := by
  intro ws
  induction ws with
  | nil =>
    intro g it chain f hwf habs hzero hfree _ _
    exact ⟨chain, hwf, habs, hzero, hfree⟩
  | cons p rest ih =>
    intro g it chain f hwf habs hzero hfree hdom hok
    obtain ⟨buf, off⟩ := p
    rcases hw : ghostfs_write g it buf (off : Int) with ⟨g1, r1⟩
    cases r1 with
    | error r =>
      exfalso
      have hstep : applyWrites g it ((buf, off) :: rest) = (g1, false) := by
        simp only [applyWrites]
        rw [hw]
      rw [hstep] at hok
      exact Bool.noConfusion hok
    | ok w =>
      have hstep : applyWrites g it ((buf, off) :: rest) = applyWrites g1 it rest := by
        simp only [applyWrites]
        rw [hw]
      rw [hstep] at hok ⊢
      obtain ⟨chain1, hwf1, habs1, hfree1⟩ := ghostfs_write_ok g it chain f buf off g1 w
        hwf habs hzero hfree (hdom _ (List.mem_cons_self _ _)).1
        (hdom _ (List.mem_cons_self _ _)).2 hw
      have hz1 := specWrite_zero_ext f buf off hzero
      exact ih g1 it chain1 (specWrite f buf off) hwf1 habs1 hz1 hfree1
        (fun q hq => hdom q (List.mem_cons_of_mem _ hq)) hok

/-- a full-file read at offset 0 of a well-formed file returns exactly
the abstract contents. -/
theorem ghostfs_read_full (g : Ghostfs) (it : DirIter) (chain : List Nat) (f : SpecFile)
    (hwf : FileWF g it chain) (habs : FileAbs g it chain f) :
    ghostfs_read g it f.size 0 = .ok ((List.range f.size).map f.content) := by
  have hsz : (entryAtIter g it).size = f.size := habs.1
  have hsize31 : f.size < 2 ^ 31 := by rw [← hsz]; exact hwf.size_lt
  have hlen : chain.length = size_to_clusters f.size := by rw [hwf.len, hsz]
  have hmem2 : ∀ p ∈ chain, 1 ≤ p ∧ p < g.cluster_count := fun p hp =>
    ⟨(hwf.mem p hp).1, (hwf.mem p hp).2.1⟩
  simp only [ghostfs_read]
  rw [if_neg (show ¬ ((0 : Int) < 0) by omega)]
  rw [show ((0 : Int)).toNat = 0 from rfl]
  rw [if_neg (show ¬ (f.size + 0) % 2 ^ 64 < f.size by omega)]
  rw [hsz]
  rw [if_neg (show ¬ f.size < 0 by omega)]
  rw [if_neg (show ¬ f.size < 0 + f.size by omega)]
  by_cases hfs0 : f.size = 0
  · rw [if_pos hfs0, hfs0]
    rfl
  · rw [if_neg hfs0]
    have hlen_pos : 0 < chain.length := by
      rw [hlen]
      exact stc_pos _ (by omega)
    have hcat := cluster_at_nr_chain g chain 0 hwf.links hmem2 hlen_pos
    rw [hwf.head, Nat.zero_div, hcat, Nat.zero_mod]
    have happly := read_loop_spec (f.size + 1) g chain f.size 0 0 [] hwf.links hmem2
      (by simp [CLUSTER_DATA]) hlen_pos
      (by
        have h2 := stc_le f.size
        rw [← hlen] at h2
        simpa using h2)
      (by omega)
    show read_loop (f.size + 1) g (chain.getD 0 0) f.size 0 [] =
      Except.ok ((List.range f.size).map f.content)
    rw [happly]
    refine congrArg Except.ok ?_
    rw [List.nil_append]
    refine List.map_congr_left ?_
    intro t ht
    rw [List.mem_range] at ht
    simp only [Nat.zero_mul, Nat.zero_add]
    exact habs.2 t ht

/-- C1: for a freshly created empty file mutated only by a sequence of
successful `ghostfs_write` calls with `off_t`- and `size_t`-representable
arguments, a `ghostfs_read` at offset 0 with length equal to the file's
size returns exactly the byte string obtained by applying those writes
last-writer-wins per byte to an initially zero-extended file. -/
theorem C1_write_read_roundtrip (g : Ghostfs) (it : DirIter) (ws : List (List Nat × Nat))
    (hwf : FileWF g it [])
    (hfree : g.free_clusters < 65536)
    (hdom : ∀ p ∈ ws, p.2 < 2 ^ 63 ∧ p.1.length < 2 ^ 64)
    (hok : (applyWrites g it ws).2 = true) :
    (entryAtIter (applyWrites g it ws).1 it).size = (specOfWrites ws).size ∧
    ghostfs_read (applyWrites g it ws).1 it (specOfWrites ws).size 0 =
      .ok ((List.range (specOfWrites ws).size).map (specOfWrites ws).content) := by
  have hsz0 : (entryAtIter g it).size = 0 := by
    have h := hwf.len
    have h2 : size_to_clusters (entryAtIter g it).size = 0 := by simpa using h.symm
    exact (stc_eq_zero_iff _).1 h2
  have habs0 : FileAbs g it [] specFile0 :=
    ⟨by rw [hsz0]; rfl, by intro i hi; exact absurd hi (by simp [specFile0])⟩
  obtain ⟨chain', hwf', habs', hz', hfree'⟩ := applyWrites_spec ws g it [] specFile0 hwf habs0
    (by intro i _; rfl) hfree hdom hok
  exact ⟨habs'.1, ghostfs_read_full _ it chain' _ hwf' habs'⟩

/-- C1 witness: the theorem applied to the concrete empty file `"/b"` and
the single write of `[7, 8]` at offset 0. -/
theorem C1_witness :
    FileWF exGEmpty exIt [] ∧ exGEmpty.free_clusters < 65536 ∧
    (∀ p ∈ [(([7, 8] : List Nat), (0 : Nat))], p.2 < 2 ^ 63 ∧ p.1.length < 2 ^ 64) ∧
    (applyWrites exGEmpty exIt [([7, 8], 0)]).2 = true ∧
    ((entryAtIter (applyWrites exGEmpty exIt [([7, 8], 0)]).1 exIt).size =
        (specOfWrites [([7, 8], 0)]).size ∧
      ghostfs_read (applyWrites exGEmpty exIt [([7, 8], 0)]).1 exIt
          (specOfWrites [([7, 8], 0)]).size 0 =
        .ok ((List.range (specOfWrites [([7, 8], 0)]).size).map
          (specOfWrites [([7, 8], 0)]).content)) := by
  have hwf : FileWF exGEmpty exIt [] :=
    ⟨by decide, rfl, by decide, by decide, Or.inl rfl, by decide, by decide, by decide,
      (by intro k hk; simp at hk),
      (by intro h; exact absurd rfl h),
      List.nodup_nil,
      (by intro p hp; exact absurd hp (List.not_mem_nil p)),
      List.not_mem_nil _⟩
  exact ⟨hwf, by decide, by decide, by decide,
    C1_write_read_roundtrip exGEmpty exIt [([7, 8], 0)] hwf (by decide) (by decide) (by decide)⟩

/-! ## Format and mount of the minimal store (C6) -/

theorem map_range_getD (l : List Nat) (h : l.length = 16) :
    (List.range 16).map (fun k => l.getD k 0) = l := by
  refine List.ext_getElem (by simp [h]) ?_
  intro n h1 h2
  simp only [List.getElem_map, List.getElem_range]
  exact List.getD_eq_getElem l 0 h2

/-- every cluster of the freshly formatted minimal store deserializes to
the all-zero cluster. -/
theorem fmtStore_clusters (md5 : List Nat → List Nat) (nr : Nat) :
    storeCluster (fmtStore md5) nr = zeroCl := by
  have hb : ∀ p, 18 ≤ p → (fmtStore md5).bytes p = 0 := by
    intro p hp
    show (if 18 ≤ p ∧ p < 4114 then clusterBytes fmtC0 (p - 18)
      else if 16 ≤ p ∧ p < 18 then [1, 0].getD (p - 16) 0
      else if 0 ≤ p ∧ p < 16 then (md5 fmtArg).getD p 0 else 0) = 0
    rcases Nat.lt_or_ge p 4114 with hlt | hge
    · rw [if_pos ⟨hp, hlt⟩]
      simp only [clusterBytes, fmtC0]
      split_ifs <;> rfl
    · rw [if_neg (by omega), if_neg (by omega), if_neg (by omega)]
  unfold storeCluster zeroCl
  rw [show (fun j => (fmtStore md5).bytes (18 + 4096 * nr + j)) = (fun _ => (0 : Nat)) from
    funext fun j => hb _ (by omega), hb _ (by omega), hb _ (by omega), hb _ (by omega)]

/-- C6 amended: formatting a backing store of exactly `18 + 4096` bytes
and mounting it yields a filesystem with `cluster_count = 1`; on it a
`mkdir` of a fresh single-component name fails with `-ENOSPC` (the new
directory needs a data cluster), while a `create` of a regular file with
such a name succeeds, because an empty file needs no cluster. -/
theorem C6_one_cluster_amended (md5 : List Nat → List Nat)
    (hlen : ∀ x, (md5 x).length = 16) :
    (ghostfs_format md5 exStore0).2 = .ok () ∧
    ghostfs_mount md5 (ghostfs_format md5 exStore0).1 = .ok gOneCluster ∧
    gOneCluster.cluster_count = 1 ∧
    (ghostfs_create gOneCluster [47, 98]).2 = .ok () ∧
    (ghostfs_mkdir gOneCluster [47, 100]).2 = .error enospc := by
  have hfmt : ghostfs_format md5 exStore0 = (fmtStore md5, .ok ()) := rfl
  have hchk : ghostfs_check md5 (fmtStore md5) = .ok 1 := by
    have e1 : ghostfs_check md5 (fmtStore md5) =
        (if md5 (((List.range 2).map fun k => (fmtStore md5).bytes (16 + k)) ++
            ((List.range 4096).map fun k => (fmtStore md5).bytes (18 + k))) =
          ((List.range 16).map fun k => (fmtStore md5).bytes (0 + k))
        then .ok (((List.range 2).map fun k => (fmtStore md5).bytes (16 + k)).getD 0 0 +
          256 * ((List.range 2).map fun k => (fmtStore md5).bytes (16 + k)).getD 1 0)
        else .error eio) := rfl
    have c2 : ((List.range 4096).map fun k => (fmtStore md5).bytes (18 + k)) =
        (List.range 4096).map (clusterBytes fmtC0) := by
      refine List.map_congr_left ?_
      intro k hk
      rw [List.mem_range] at hk
      show (if 18 ≤ 18 + k ∧ 18 + k < 4114 then clusterBytes fmtC0 (18 + k - 18)
        else if 16 ≤ 18 + k ∧ 18 + k < 18 then [1, 0].getD (18 + k - 16) 0
        else if 0 ≤ 18 + k ∧ 18 + k < 16 then (md5 fmtArg).getD (18 + k) 0 else 0) =
        clusterBytes fmtC0 k
      rw [if_pos ⟨by omega, by omega⟩]
      congr 1
      omega
    have hargL : ((List.range 2).map fun k => (fmtStore md5).bytes (16 + k)) ++
        ((List.range 4096).map fun k => (fmtStore md5).bytes (18 + k)) = fmtArg := by
      rw [c2]
      rfl
    have hargR : ((List.range 16).map fun k => (fmtStore md5).bytes (0 + k)) =
        (List.range 16).map fun k => (md5 fmtArg).getD k 0 := by
      refine List.map_congr_left ?_
      intro k hk
      rw [List.mem_range] at hk
      rw [Nat.zero_add]
      show (if 18 ≤ k ∧ k < 4114 then clusterBytes fmtC0 (k - 18)
        else if 16 ≤ k ∧ k < 18 then [1, 0].getD (k - 16) 0
        else if 0 ≤ k ∧ k < 16 then (md5 fmtArg).getD k 0 else 0) = (md5 fmtArg).getD k 0
      rw [if_neg (by omega), if_neg (by omega), if_pos ⟨by omega, hk⟩]
    rw [e1, hargL, hargR, if_pos (map_range_getD (md5 fmtArg) (hlen fmtArg)).symm]
    rfl
  have hmnt : ghostfs_mount md5 (fmtStore md5) = .ok gOneCluster := by
    have h1 : ghostfs_mount md5 (fmtStore md5) =
        .ok { cluster_count := 1
            , clusters := fun nr => storeCluster (fmtStore md5) nr
            , root_entry := { filename := List.replicate 56 0, size := 2 ^ 31, cluster := 0 }
            , free_clusters := 0 } := by
      unfold ghostfs_mount
      rw [hchk]
      rfl
    rw [h1]
    refine congrArg Except.ok ?_
    rw [show (fun nr => storeCluster (fmtStore md5) nr) = (fun _ => zeroCl) from
      funext (fmtStore_clusters md5)]
    rfl
  exact ⟨by rw [hfmt], by rw [hfmt]; exact hmnt, rfl, by decide, by decide⟩

/-- C6 witness: the amended theorem applied with the constant digest
function, whose digests have length 16. -/
theorem C6_witness :
    (∀ x, (exMd5 x).length = 16) ∧
    ((ghostfs_format exMd5 exStore0).2 = .ok () ∧
      ghostfs_mount exMd5 (ghostfs_format exMd5 exStore0).1 = .ok gOneCluster ∧
      gOneCluster.cluster_count = 1 ∧
      (ghostfs_create gOneCluster [47, 98]).2 = .ok () ∧
      (ghostfs_mkdir gOneCluster [47, 100]).2 = .error enospc) :=
  ⟨fun _ => rfl, C6_one_cluster_amended exMd5 (fun _ => rfl)⟩

/-! ## The field copy of `ghostfs_rename` (C8) -/

theorem setRawSizeAtIter_slot (g : Ghostfs) (it : DirIter) (v : Nat)
    (h : it.isRoot = false) :
    setRawSizeAtIter g it v =
      setCluster g it.cluster_nr (putSizeBytes (g.clusters it.cluster_nr) it.entry_nr v) := by
  simp [setRawSizeAtIter, h]

/-- the two field-copy writes at the end of `ghostfs_rename` give the
created entry the old raw size — hence the old directory flag — and the
old cluster number modulo the u16 field width. -/
theorem rename_copy_fields (g3 : Ghostfs) (entry_it : DirIter) (old : DirEntry)
    (h5 : entry_it.isRoot = false) :
    dir_entry_is_directory (entryAtIter
        (setEntryClusterAtIter (setRawSizeAtIter g3 entry_it old.size) entry_it old.cluster)
        entry_it) = dir_entry_is_directory old ∧
    (entryAtIter (setEntryClusterAtIter (setRawSizeAtIter g3 entry_it old.size) entry_it
        old.cluster) entry_it).cluster = old.cluster % 65536 := by
  have hE : entryAtIter
      (setEntryClusterAtIter (setRawSizeAtIter g3 entry_it old.size) entry_it old.cluster)
      entry_it =
      getEntry (putClusterBytes (putSizeBytes (g3.clusters entry_it.cluster_nr)
        entry_it.entry_nr old.size) entry_it.entry_nr old.cluster) entry_it.entry_nr := by
    rw [setRawSizeAtIter_slot _ _ _ h5, setEntryClusterAtIter_slot _ _ _ h5,
      entryAtIter_slot _ _ h5, clusters_setCluster, if_pos rfl, clusters_setCluster,
      if_pos rfl]
  constructor
  · rw [hE]
    unfold dir_entry_is_directory
    rw [getEntry_putClusterBytes_size, getEntry_putSizeBytes_size]
    have h : (old.size % 256 + 256 * (old.size / 256 % 256) +
        65536 * (old.size / 65536 % 256) + 16777216 * (old.size / 16777216 % 256)) /
          2 ^ 31 % 2 = old.size / 2 ^ 31 % 2 := by
      omega
    rw [h]
  · rw [hE, getEntry_putClusterBytes_cluster]
    omega

/-- C8 amended: `ghostfs_rename` copies the old entry's raw `size`
field — bit 31, the `is_dir` flag, included — and its `cluster` field
onto the entry it creates at the new path; on success the created
entry's directory flag equals the old entry's flag as it stands when the
fields are copied (the flag is copied, not cleared). -/
theorem C8_rename_preserves_flag (g g2 : Ghostfs) (path newpath : List Nat)
    (it entry_it : DirIter)
    (h1 : dir_iter_lookup g path false = .ok it)
    (h2 : it.isRoot = false)
    (h4 : create_entry (remove_entry g newpath false).1 newpath false = (g2, .ok entry_it))
    (h5 : entry_it.isRoot = false) :
    ∃ g5, ghostfs_rename g path newpath = (g5, .ok ()) ∧
      dir_entry_is_directory (entryAtIter g5 entry_it) =
        dir_entry_is_directory (entryAtIter (markNr (setCluster g2 it.cluster_nr
          (clearFilename (g2.clusters it.cluster_nr) it.entry_nr)) it.cluster_nr) it) ∧
      (entryAtIter g5 entry_it).cluster =
        (entryAtIter (markNr (setCluster g2 it.cluster_nr
          (clearFilename (g2.clusters it.cluster_nr) it.entry_nr)) it.cluster_nr) it).cluster
          % 65536 := by
  rcases hrm : remove_entry g newpath false with ⟨g1, r1⟩
  rw [hrm] at h4
  have h4' : create_entry g1 newpath false = (g2, .ok entry_it) := h4
  refine ⟨_, ?_,
    (rename_copy_fields (markNr (setCluster g2 it.cluster_nr
      (clearFilename (g2.clusters it.cluster_nr) it.entry_nr)) it.cluster_nr) entry_it
      (entryAtIter (markNr (setCluster g2 it.cluster_nr
        (clearFilename (g2.clusters it.cluster_nr) it.entry_nr)) it.cluster_nr) it) h5).1,
    (rename_copy_fields (markNr (setCluster g2 it.cluster_nr
      (clearFilename (g2.clusters it.cluster_nr) it.entry_nr)) it.cluster_nr) entry_it
      (entryAtIter (markNr (setCluster g2 it.cluster_nr
        (clearFilename (g2.clusters it.cluster_nr) it.entry_nr)) it.cluster_nr) it) h5).2⟩
  simp only [ghostfs_rename, h1, h2, Bool.false_eq_true, if_false, hrm, h4']

/-- C8 witness: the theorem applied to `rename("/d", "/e")` on the
concrete filesystem whose root holds the directory `"/d"`. -/
theorem C8_witness :
    dir_iter_lookup exGDir [47, 100] false = .ok ⟨0, 0, false⟩ ∧
    (create_entry (remove_entry exGDir [47, 101] false).1 [47, 101] false).2 =
      .ok ⟨0, 1, false⟩ ∧
    (∃ g5, ghostfs_rename exGDir [47, 100] [47, 101] = (g5, .ok ()) ∧
      dir_entry_is_directory (entryAtIter g5 ⟨0, 1, false⟩) =
        dir_entry_is_directory (entryAtIter (markNr (setCluster
          (create_entry (remove_entry exGDir [47, 101] false).1 [47, 101] false).1 0
          (clearFilename ((create_entry (remove_entry exGDir [47, 101] false).1
            [47, 101] false).1.clusters 0) 0)) 0) ⟨0, 0, false⟩) ∧
      (entryAtIter g5 ⟨0, 1, false⟩).cluster =
        (entryAtIter (markNr (setCluster
          (create_entry (remove_entry exGDir [47, 101] false).1 [47, 101] false).1 0
          (clearFilename ((create_entry (remove_entry exGDir [47, 101] false).1
            [47, 101] false).1.clusters 0) 0)) 0) ⟨0, 0, false⟩).cluster % 65536) := by
  have hsnd : (create_entry (remove_entry exGDir [47, 101] false).1 [47, 101] false).2 =
      .ok ⟨0, 1, false⟩ := by decide
  have h4 : create_entry (remove_entry exGDir [47, 101] false).1 [47, 101] false =
      ((create_entry (remove_entry exGDir [47, 101] false).1 [47, 101] false).1,
        .ok ⟨0, 1, false⟩) := by
    rw [← hsnd]
  exact ⟨by decide, hsnd,
    C8_rename_preserves_flag exGDir _ [47, 100] [47, 101] ⟨0, 0, false⟩ ⟨0, 1, false⟩
      (by decide) rfl h4 rfl⟩

end GFS
